import Mathlib

/-!
# Verification of the ITU-T P.1203 implementation (itu-p1203)

Shallow embedding of the quality-estimation core of the `itu_p1203` Python
package: the sliding measurement window (`measurementwindow.py`), the audio
model Pa (`p1203Pa.py`), the video model Pv (`p1203Pv.py`), the integration
module Pq (`p1203Pq.py`), the random-forest feature extraction
(`rfmodel.py`) and the numeric utilities (`utils.py`).

Modelling conventions:
* Python floats are idealised as exact rationals (`ℚ`); transcendental
  functions (`math.exp`, `np.exp`, `np.log`, …) that only feed opaque score
  values are abstracted as function parameters, so that structural claims
  (lengths, orderings, equalities of pipelines that call the same function
  with the same arguments) can be settled exactly.  The stalling-impact
  formula, whose claim is about the exact value `exp 0 = 1`, is embedded
  over `ℝ` with `Real.exp`.
* Python exceptions (`SystemExit`, `IndexError`, `KeyError`, model errors)
  are modelled by a `crashed` flag or by `Option`.
* The score callback passed to the measurement window mutates the caller's
  score list in Python; here the callback returns the list of scores it
  appends, and the window state accumulates them (`o`), together with the
  number of callback invocations (`cbCount`).
-/

namespace P1203

/-- Python `round(x, 5)`: round to 5 decimal places, ties to even
(Python's banker's rounding), idealised over `ℚ`. -/
def pyRound5 (x : ℚ) : ℚ :=
  ((if x * 100000 - Int.floor (x * 100000) < 1/2 then Int.floor (x * 100000)
    else if x * 100000 - Int.floor (x * 100000) > 1/2 then
      Int.floor (x * 100000) + 1
    else if Int.floor (x * 100000) % 2 = 0 then Int.floor (x * 100000)
    else Int.floor (x * 100000) + 1 : ℤ) : ℚ) / 100000

/-- Python `int(x)` for a rational: truncation towards zero. -/
def pyInt (x : ℚ) : ℤ :=
  if 0 ≤ x then Int.floor x else Int.ceil x

/-- `MOS_MAX` from utils.py. -/
def MOS_MAX : ℚ := 49/10

/-- `MOS_MIN` from utils.py. -/
def MOS_MIN : ℚ := 105/100

/-- `mos_from_r` from utils.py:
`MOS = MOS_MIN + (MOS_MAX - MOS_MIN) * Q / 100 + Q * (Q - 60) * (100 - Q) * 0.000007`,
clamped to `[MOS_MIN, MOS_MAX]`. -/
def mos_from_r (Q : ℚ) : ℚ :=
  let MOS := MOS_MIN + (MOS_MAX - MOS_MIN) * Q / 100
      + Q * (Q - 60) * (100 - Q) * (7/1000000)
  min MOS_MAX (max MOS MOS_MIN)

/-!
## Measurement window (`measurementwindow.py`)

`MeasurementWindow` is generic in the frame type `α`; the concrete Python
code reads a frame's `"duration"` and `"dts"` entries and rewrites its
`"representation"` entry, which is abstracted by the `MWParams` record.
-/

/-- The frame-type–specific operations used by `MeasurementWindow`:
`dur`/`dts` read `frame["duration"]`/`frame["dts"]`; `setRep` performs
`frame["representation"] = get_chunk_hash(frame, ...)` (returning `none` on
a Python `KeyError`); `cb` is the score callback, returning the scores it
appends to the model's output list, or `none` if it raises. -/
structure MWParams (α : Type) where
  dur : α → ℚ
  dts : α → ℚ
  setRep : α → Option α
  cb : ℕ → List α → Option (List ℚ)

/-- State of `MeasurementWindow` (plus the callback's accumulated output
`o`, its invocation count `cbCount`, and a `crashed` flag standing for a
raised exception). `maxSize = 20` and `halfWindowSize = 10` are inlined. -/
structure MW (α : Type) where
  frames : List α
  removed : List α
  last : ℕ
  accFrame : ℚ
  accPvs : ℚ
  o : List ℚ
  cbCount : ℕ
  crashed : Bool
deriving Repr

/-- `MeasurementWindow.__init__`. -/
def MW.init {α : Type} : MW α :=
  ⟨[], [], 0, 0, 0, [], 0, false⟩

/-- `MeasurementWindow._should_calculate_score`. -/
def shouldCalculateScore {α : Type} (P : MWParams α) (s : MW α) : MW α :=
  if s.last = 0 ∧ pyRound5 s.accPvs < 10 + 1 then s
  else if s.accPvs - 10 ≥ (s.last : ℚ) + 1 then
    match P.cb (s.last + 1) s.frames with
    | none => { s with crashed := true }
    | some scores =>
        { s with o := s.o ++ scores, cbCount := s.cbCount + 1,
                 last := s.last + 1 }
  else s

/-- The eviction step at the head of `add_frame`: when the new frame would
push the accumulated duration above `max_size = 20`, pop the single oldest
frame (the source uses `if`, not `while`); `self._frames.pop(0)` on an
empty list is a crash. -/
def evictStep {α : Type} (P : MWParams α) (s : MW α) (f : α) : MW α :=
  if s.accFrame + P.dur f > 20 then
    match s.frames with
    | [] => { s with crashed := true }
    | g :: rest =>
        { s with frames := rest, removed := s.removed ++ [g],
                 accFrame := s.accFrame - P.dur g }
  else s

/-- Appending the (representation-updated) frame and bumping both
accumulated durations. -/
def appendStep {α : Type} (P : MWParams α) (s : MW α) (f' : α) : MW α :=
  { s with frames := s.frames ++ [f'],
           accFrame := s.accFrame + P.dur f',
           accPvs := s.accPvs + P.dur f' }

/-- `MeasurementWindow.add_frame`: reject falsy durations, evict, write the
chunk hash into the frame, append, then run the emission check. -/
def addFrame {α : Type} (P : MWParams α) (s : MW α) (f : α) : MW α :=
  if s.crashed then s
  else if P.dur f = 0 then { s with crashed := true }
  else if (evictStep P s f).crashed then evictStep P s f
  else
    match P.setRep f with
    | none => { evictStep P s f with crashed := true }
    | some f' => shouldCalculateScore P (appendStep P (evictStep P s f) f')

/-- The frame-eviction loop at the head of each `stream_finished`
iteration: pop frames whose rounded `dts` is below `t - 10`; evaluating
`frames[0]` on an empty list is a crash (`none`).  Returns the remaining
frames, the popped frames in order, and their total duration. -/
def flushPops {α : Type} (P : MWParams α) (t : ℕ) :
    List α → Option (List α × List α × ℚ)
  | [] => none
  | g :: rest =>
      if pyRound5 (P.dts g) < (t : ℚ) - 10 then
        match flushPops P t rest with
        | none => none
        | some (fr, popped, d) => some (fr, g :: popped, d + P.dur g)
      else some (g :: rest, [], 0)

/-- The `while output_sample_timestamp <= final_sample_timestamp` loop of
`stream_finished`, with the remaining iteration count as fuel. -/
def flushGo {α : Type} (P : MWParams α) : ℕ → ℕ → MW α → MW α
  | 0, _, s => s
  | fuel + 1, t, s =>
      match flushPops P t s.frames with
      | none => { s with crashed := true }
      | some (fr, popped, d) =>
          match P.cb t fr with
          | none =>
              { s with frames := fr, removed := s.removed ++ popped,
                       accFrame := s.accFrame - d, crashed := true }
          | some scores =>
              flushGo P fuel (t + 1)
                { s with frames := fr, removed := s.removed ++ popped,
                         accFrame := s.accFrame - d, o := s.o ++ scores,
                         cbCount := s.cbCount + 1 }

/-- `MeasurementWindow.stream_finished`: the final sample timestamp is
`floor(acc_pvs_dur)`, corrected to `ceil` when the fractional part exceeds
`0.99`; then one callback per output second from `last + 1` up to it. -/
def streamFinished {α : Type} (P : MWParams α) (s : MW α) : MW α :=
  if s.crashed then s
  else
    let final : ℤ :=
      if s.accPvs - Int.floor s.accPvs > 99/100 then Int.ceil s.accPvs
      else Int.floor s.accPvs
    flushGo P (final - s.last).toNat (s.last + 1) s

/-!
## Audio model Pa (`p1203Pa.py`)

An audio frame carries `duration`, `dts`, `bitrate`, `codec` and possibly a
`representation` (copied from the segment).  It has no `"fps"` key, so
`add_frame` always computes the audio chunk hash for it.  The transcendental
`math.exp` is abstracted as the parameter `expQ`.
-/

/-- A synthetic Pa frame (the dict built in
`P1203Pa._calculate_with_measurementwindow`). -/
structure AFrame where
  duration : ℚ
  dts : ℚ
  bitrate : ℚ
  codec : String
  representation : Option String
deriving Repr, DecidableEq

/-- An audio segment (`I11.segments[]` entry): the fields read by Pa. -/
structure ASegment where
  duration : ℚ
  bitrate : ℚ
  codec : String
  representation : Option String
deriving Repr, DecidableEq

/-- `get_chunk_hash(frame, "audio")` from utils.py: an existing
`representation` wins, otherwise `str(bitrate) + str(codec)`. -/
def AFrame.chunkHash (f : AFrame) : String :=
  match f.representation with
  | some r => r
  | none => toString f.bitrate ++ f.codec

/-- `P1203Pa.VALID_CODECS`. -/
def VALID_CODECS : List String := ["mp2", "ac3", "aaclc", "heaac"]

/-- `P1203Pa.COEFFS_A1` (all 100). -/
def COEFFS_A1 (_ : String) : ℚ := 100

/-- `P1203Pa.COEFFS_A2`. -/
def COEFFS_A2 (c : String) : ℚ :=
  if c = "mp2" then -2/100 else if c = "ac3" then -3/100
  else if c = "aaclc" then -5/100 else if c = "heaac" then -11/100 else 0

/-- `P1203Pa.COEFFS_A3`. -/
def COEFFS_A3 (c : String) : ℚ :=
  if c = "mp2" then 1548/100 else if c = "ac3" then 1570/100
  else if c = "aaclc" then 1460/100 else if c = "heaac" then 2006/100 else 0

/-- `P1203Pa.audio_model_function`: `none` models the
`P1203StandaloneError` for an unsupported codec; `expQ` stands for
`math.exp`. -/
def audioModelFn (expQ : ℚ → ℚ) (codec : String) (bitrate : ℚ) : Option ℚ :=
  if codec ∈ VALID_CODECS then
    let q_cod_a := COEFFS_A1 codec * expQ (COEFFS_A2 codec * bitrate)
        + COEFFS_A3 codec
    some (mos_from_r (100 - q_cod_a))
  else none

/-- `P1203Pa.model_callback`: pick the last frame with `dts <
output_sample_timestamp` (an `IndexError` on an empty selection is
`none`); with `onlyfirst=True`, `get_chunk` returns just that frame, whose
codec and bitrate feed the audio model.  The returned singleton is the
score the Python callback appends to `self.o21`. -/
def paCallback (expQ : ℚ → ℚ) (t : ℕ) (frames : List AFrame) :
    Option (List ℚ) :=
  match (frames.filter (fun f => f.dts < (t : ℚ))).getLast? with
  | none => none
  | some f => (audioModelFn expQ f.codec f.bitrate).map (fun s => [s])

/-- The measurement-window parameters used by Pa. -/
def paParams (expQ : ℚ → ℚ) : MWParams AFrame :=
  { dur := AFrame.duration
    dts := AFrame.dts
    setRep := fun f => some { f with representation := some f.chunkHash }
    cb := paCallback expQ }

/-- The synthetic frame fed to the window for sample `i` of a segment:
100 frames per second, each lasting `1/100` s, starting at `dts`. -/
def paFrame (seg : ASegment) (codecU : String) (dts : ℚ) : AFrame :=
  ⟨1/100, dts, seg.bitrate, codecU, seg.representation⟩

/-- The inner frame-generation loop of
`P1203Pa._calculate_with_measurementwindow` for one segment, threading the
running `dts`. -/
def paSegmentLoop (expQ : ℚ → ℚ) (st : ℚ × MW AFrame) (seg : ASegment) :
    ℚ × MW AFrame :=
  let codecU := if seg.codec = "aac" then "aaclc" else seg.codec
  let numFrames := (pyInt (seg.duration * 100)).toNat
  (List.range numFrames).foldl
    (fun (p : ℚ × MW AFrame) _ =>
      (p.1 + 1/100, addFrame (paParams expQ) p.2 (paFrame seg codecU p.1)))
    st

/-- `P1203Pa._calculate_with_measurementwindow`: feed all synthetic frames
through the window, then flush. -/
def paWindowRun (expQ : ℚ → ℚ) (segs : List ASegment) : MW AFrame :=
  let s := (segs.foldl (paSegmentLoop expQ) (0, MW.init)).2
  streamFinished (paParams expQ) s

/-- The `O21` vector computed by Pa in (standard) measurement-window mode;
`none` when the Python run would raise. -/
def paWindowO21 (expQ : ℚ → ℚ) (segs : List ASegment) : Option (List ℚ) :=
  let s := paWindowRun expQ segs
  if s.crashed then none else some s.o

/-- `P1203Pa._calculate_fast_mode`: one score per segment, repeated
`floor(duration)` times (no `aac` aliasing happens on this path). -/
def paFastO21 (expQ : ℚ → ℚ) (segs : List ASegment) : Option (List ℚ) :=
  segs.foldl
    (fun acc seg =>
      match acc with
      | none => none
      | some l =>
          match audioModelFn expQ seg.codec seg.bitrate with
          | none => none
          | some sc => some (l ++ List.replicate (Int.floor seg.duration).toNat sc))
    (some [])

/-- A minimal window instantiation used to exercise `MeasurementWindow`
on bare audio-style frames: the callback appends nothing. -/
def plainParams : MWParams AFrame :=
  { dur := AFrame.duration
    dts := AFrame.dts
    setRep := fun f => some { f with representation := some f.chunkHash }
    cb := fun _ _ => some [] }

/-- A bare frame with the given duration and dts. -/
def mkPlain (d dts : ℚ) : AFrame := ⟨d, dts, 0, "c", none⟩

/-!
### Window-state helper lemmas
-/

theorem shouldCalc_preserve {α : Type} (P : MWParams α) (s : MW α) :
    (shouldCalculateScore P s).frames = s.frames ∧
    (shouldCalculateScore P s).accFrame = s.accFrame ∧
    (shouldCalculateScore P s).accPvs = s.accPvs := by
  unfold shouldCalculateScore
  split
  · exact ⟨rfl, rfl, rfl⟩
  · split
    · rcases hcb : P.cb (s.last + 1) s.frames with _ | sc <;> simp [hcb]
    · exact ⟨rfl, rfl, rfl⟩

theorem shouldCalc_noop {α : Type} (P : MWParams α) (s : MW α)
    (h0 : s.last = 0) (h11 : s.accPvs < 11) :
    shouldCalculateScore P s = s := by
  unfold shouldCalculateScore
  by_cases hr : pyRound5 s.accPvs < 10 + 1
  · rw [if_pos ⟨h0, hr⟩]
  · rw [if_neg (by intro hc; exact hr hc.2), if_neg]
    rw [h0]
    push_cast
    intro hge
    linarith

theorem pyRound5_nonneg {x : ℚ} (hx : 0 ≤ x) : 0 ≤ pyRound5 x := by
  unfold pyRound5
  have hy : (0 : ℚ) ≤ x * 100000 := by positivity
  have hf : (0 : ℤ) ≤ Int.floor (x * 100000) := by
    exact_mod_cast Int.le_floor.2 (by exact_mod_cast hy)
  split
  · positivity
  · split
    · have : (0:ℚ) ≤ ((Int.floor (x * 100000) + 1 : ℤ) : ℚ) := by
        exact_mod_cast Int.add_nonneg hf (by norm_num)
      positivity
    · split
      · positivity
      · have : (0:ℚ) ≤ ((Int.floor (x * 100000) + 1 : ℤ) : ℚ) := by
          exact_mod_cast Int.add_nonneg hf (by norm_num)
        positivity

theorem pyRound5_of_int_mul {x : ℚ} (m : ℤ) (hm : x * 100000 = (m : ℚ)) :
    pyRound5 x = x := by
  unfold pyRound5
  rw [hm]
  rw [Int.floor_intCast]
  simp only [sub_self]
  rw [if_pos (by norm_num)]
  field_simp
  linarith [hm]

/-!
### C2: the 20-second bound of the measurement window
-/

/-- Invariant tying the window's accumulated duration to its frame list. -/
def durInv {α : Type} (P : MWParams α) (d : ℚ) (s : MW α) : Prop :=
  s.accFrame = (s.frames.map P.dur).sum ∧ s.accFrame ≤ 20 ∧
  ∀ f ∈ s.frames, P.dur f = d

theorem durInv_evict {α : Type} {P : MWParams α} {d : ℚ} {s : MW α} (f : α)
    (hd0 : 0 < d) (hs : durInv P d s) : durInv P d (evictStep P s f) := by
  obtain ⟨hacc, hle, hall⟩ := hs
  unfold evictStep
  split
  · split
    · exact ⟨hacc, hle, hall⟩
    · next g rest hfr =>
        refine ⟨?_, ?_, ?_⟩
        · show s.accFrame - P.dur g = (rest.map P.dur).sum
          rw [hacc, hfr]
          simp [List.sum_cons]
        · show s.accFrame - P.dur g ≤ 20
          have hg : P.dur g = d := hall g (by rw [hfr]; exact List.mem_cons_self _ _)
          have : 0 ≤ P.dur g := by rw [hg]; linarith
          linarith
        · intro f' hf'
          exact hall f' (by rw [hfr]; exact List.mem_cons_of_mem _ hf')
  · exact ⟨hacc, hle, hall⟩

theorem evict_headroom {α : Type} {P : MWParams α} {d : ℚ} {s : MW α} (f : α)
    (hf : P.dur f = d) (hs : durInv P d s)
    (hnc : s.crashed = false) :
    (evictStep P s f).crashed = true ∨
      ((evictStep P s f).crashed = false ∧
        (evictStep P s f).accFrame + P.dur f ≤ 20) := by
  obtain ⟨hacc, hle, hall⟩ := hs
  unfold evictStep
  split
  · split
    · left; rfl
    · next g rest hfr =>
        right
        refine ⟨hnc, ?_⟩
        show s.accFrame - P.dur g + P.dur f ≤ 20
        have hg : P.dur g = d := hall g (by rw [hfr]; exact List.mem_cons_self _ _)
        rw [hg, hf]
        linarith
  · right
    rename_i hno
    push_neg at hno
    exact ⟨hnc, hno⟩

theorem durInv_addFrame {α : Type} {P : MWParams α} {d : ℚ} (s : MW α) (f : α)
    (hd0 : 0 < d) (hd20 : d ≤ 20) (hf : P.dur f = d)
    (hrep : ∀ g g', P.setRep g = some g' → P.dur g' = P.dur g)
    (hs : durInv P d s) : durInv P d (addFrame P s f) := by
  unfold addFrame
  split
  · exact hs
  rename_i hcr
  split
  · exact hs
  rename_i hdnz
  split
  · exact durInv_evict f hd0 hs
  rename_i hevcr
  split
  · exact durInv_evict f hd0 hs
  rename_i f' hsr
  have hnc : s.crashed = false := by
    cases hc : s.crashed
    · rfl
    · exact absurd hc hcr
  have hev := durInv_evict f hd0 hs
  have hroom := evict_headroom f hf hs hnc
  rcases hroom with hcr2 | ⟨_, hle⟩
  · exact absurd hcr2 hevcr
  · obtain ⟨hacc1, hle1, hall1⟩ := hev
    have hdf' : P.dur f' = d := by rw [hrep f f' hsr, hf]
    have happ : durInv P d (appendStep P (evictStep P s f) f') := by
      refine ⟨?_, ?_, ?_⟩
      · show (evictStep P s f).accFrame + P.dur f'
          = (((evictStep P s f).frames ++ [f']).map P.dur).sum
        rw [hacc1]
        simp
      · show (evictStep P s f).accFrame + P.dur f' ≤ 20
        rw [hdf', ← hf]
        exact hle
      · intro g hg
        rcases List.mem_append.mp hg with hg | hg
        · exact hall1 g hg
        · rw [List.mem_singleton.mp hg]; exact hdf'
    have hp := shouldCalc_preserve P (appendStep P (evictStep P s f) f')
    obtain ⟨hpf, hpa, _⟩ := hp
    obtain ⟨ha, hb, hc⟩ := happ
    exact ⟨by rw [hpf, hpa]; exact ha, by rw [hpa]; exact hb,
      by rw [hpf]; exact hc⟩

/-- **C2, counterexample.** Feeding frames of durations `1, 1, 19.5`
leaves `acc_frame_dur = 20.5 > 20` after the third `add_frame`: only one
oldest frame is evicted, so the window does not stay within 20 s. -/
theorem c2_counterexample :
    ¬ (([mkPlain 1 0, mkPlain 1 1, mkPlain (39/2) 2].foldl
        (addFrame plainParams) MW.init).accFrame ≤ 20) := by
  with_unfolding_all decide

/-- **C2 (amended).** `add_frame` evicts at most one oldest frame per call
(the source guards the pop with `if`, not `while`), so the ≤ 20 s bound
does not hold for mixed frame durations; it does hold whenever all frames
share one duration `d` with `0 < d ≤ 20` (as in the synthetic frame
streams Pa and Pv generate per segment), and then after every call to
`add_frame` the accumulated frame duration is at most 20 seconds. -/
theorem c2_theorem {α : Type} (P : MWParams α) (d : ℚ) (fs : List α)
    (hd0 : 0 < d) (hd20 : d ≤ 20) (hfs : ∀ f ∈ fs, P.dur f = d)
    (hrep : ∀ g g', P.setRep g = some g' → P.dur g' = P.dur g) :
    (fs.foldl (addFrame P) MW.init).accFrame ≤ 20 := by
  suffices H : ∀ s : MW α, durInv P d s → durInv P d (fs.foldl (addFrame P) s) by
    exact (H MW.init ⟨rfl, by show (0:ℚ) ≤ 20; norm_num, by intro f hf; cases hf⟩).2.1
  induction fs with
  | nil => intro s hs; exact hs
  | cons f fs ih =>
      intro s hs
      have hf : P.dur f = d := hfs f (List.mem_cons_self _ _)
      have hfs' : ∀ g ∈ fs, P.dur g = d := fun g hg =>
        hfs g (List.mem_cons_of_mem _ hg)
      exact (ih hfs') _ (durInv_addFrame s f hd0 hd20 hf hrep hs)

/-- Witness for C2: uniform 1-second frames keep the window within 20 s. -/
theorem c2_witness :
    (0:ℚ) < 1 ∧
      (([mkPlain 1 0, mkPlain 1 1].foldl
        (addFrame plainParams) MW.init).accFrame ≤ 20) := by
  refine ⟨by norm_num, c2_theorem plainParams 1 [mkPlain 1 0, mkPlain 1 1]
    (by norm_num) (by norm_num) (by with_unfolding_all decide) ?_⟩
  intro g g' h
  simp only [plainParams, Option.some.injEq] at h
  rw [← h]
  rfl

/-!
### C3: sessions shorter than 11 s and emission counts
-/

theorem addFrame_warm_step {α : Type} (P : MWParams α) (s : MW α) (f f' : α)
    (hcrash : s.crashed = false) (hlast : s.last = 0)
    (hdur : 0 < P.dur f)
    (hsr : P.setRep f = some f') (hdf : P.dur f' = P.dur f)
    (hroom : s.accFrame + P.dur f ≤ 20)
    (hwarm : s.accPvs + P.dur f < 11) :
    addFrame P s f = appendStep P s f' := by
  have hev : evictStep P s f = s := by
    unfold evictStep
    exact if_neg (not_lt.mpr hroom)
  have happ : (appendStep P s f').accPvs < 11 := by
    show s.accPvs + P.dur f' < 11
    rw [hdf]
    exact hwarm
  unfold addFrame
  rw [hev]
  simp only [hcrash, Bool.false_eq_true, if_false, hsr]
  rw [if_neg (by exact hdur.ne')]
  exact shouldCalc_noop P _ hlast happ

/-- The state of the window after feeding a warm-up (< 11 s) frame
sequence: no callback has fired, and the accumulated durations are the
summed frame durations. -/
theorem warm_foldl {α : Type} (P : MWParams α) :
    ∀ (fs : List α) (s : MW α),
    s.crashed = false → s.last = 0 → s.cbCount = 0 →
    s.accFrame = s.accPvs →
    (∀ f ∈ fs, 0 < P.dur f) →
    (∀ f ∈ fs, ∃ f', P.setRep f = some f' ∧ P.dur f' = P.dur f ∧
      0 ≤ P.dts f') →
    s.accPvs + (fs.map P.dur).sum < 11 →
    (∀ g ∈ s.frames, 0 ≤ P.dts g) →
    (fs.foldl (addFrame P) s).crashed = false ∧
    (fs.foldl (addFrame P) s).last = 0 ∧
    (fs.foldl (addFrame P) s).cbCount = 0 ∧
    (fs.foldl (addFrame P) s).accFrame = (fs.foldl (addFrame P) s).accPvs ∧
    (fs.foldl (addFrame P) s).accPvs = s.accPvs + (fs.map P.dur).sum ∧
    (∀ g ∈ (fs.foldl (addFrame P) s).frames, 0 ≤ P.dts g) ∧
    (fs.foldl (addFrame P) s).frames.length = s.frames.length + fs.length := by
  intro fs
  induction fs with
  | nil =>
      intro s h1 h2 h3 h4 _ _ _ h8
      exact ⟨h1, h2, h3, h4, by simp, h8, by simp⟩
  | cons f fs ih =>
      intro s h1 h2 h3 h4 h5 h6 h7 h8
      obtain ⟨f', hsr, hdf, hdts⟩ := h6 f (List.mem_cons_self _ _)
      have hdurf : 0 < P.dur f := h5 f (List.mem_cons_self _ _)
      have hrest : (0:ℚ) ≤ ((fs.map P.dur).sum) :=
        List.sum_nonneg (by
          intro x hx
          obtain ⟨g, hg, rfl⟩ := List.mem_map.mp hx
          exact le_of_lt (h5 g (List.mem_cons_of_mem _ hg)))
      have hsump : s.accPvs + P.dur f < 11 := by
        have := h7
        simp only [List.map_cons, List.sum_cons] at this
        linarith
      have hroom : s.accFrame + P.dur f ≤ 20 := by
        rw [h4]
        linarith [hsump]
      have hstep := addFrame_warm_step P s f f' h1 h2 hdurf hsr hdf hroom hsump
      rw [List.foldl_cons, hstep]
      have := ih (appendStep P s f')
        (by show s.crashed = false; exact h1)
        (by show s.last = 0; exact h2)
        (by show s.cbCount = 0; exact h3)
        (by show s.accFrame + P.dur f' = s.accPvs + P.dur f'; rw [h4])
        (fun g hg => h5 g (List.mem_cons_of_mem _ hg))
        (fun g hg => h6 g (List.mem_cons_of_mem _ hg))
        (by
          show s.accPvs + P.dur f' + (fs.map P.dur).sum < 11
          rw [hdf]
          have := h7
          simp only [List.map_cons, List.sum_cons] at this
          linarith)
        (by
          intro g hg
          rcases List.mem_append.mp hg with hg | hg
          · exact h8 g hg
          · rw [List.mem_singleton.mp hg]; exact hdts)
      obtain ⟨a, b, c, d, e, g, h⟩ := this
      refine ⟨a, b, c, d, ?_, g, ?_⟩
      · rw [e]
        show s.accPvs + P.dur f' + (fs.map P.dur).sum
          = s.accPvs + ((f :: fs).map P.dur).sum
        rw [hdf]
        simp only [List.map_cons, List.sum_cons]
        ring
      · rw [h]
        show (s.frames ++ [f']).length + fs.length
          = s.frames.length + (f :: fs).length
        simp only [List.length_append, List.length_cons, List.length_nil]
        omega

/-- The flush loop invokes the callback once per iteration and does not
crash, as long as the output timestamps stay ≤ 10 (so that no frame with a
nonnegative `dts` is ever popped) and the callback succeeds. -/
theorem flushGo_count {α : Type} (P : MWParams α) :
    ∀ (fuel t : ℕ) (s : MW α),
    s.crashed = false → s.frames ≠ [] →
    (∀ g ∈ s.frames, 0 ≤ P.dts g) →
    (∀ u fr, (P.cb u fr).isSome) →
    t + fuel ≤ 11 →
    (flushGo P fuel t s).cbCount = s.cbCount + fuel ∧
    (flushGo P fuel t s).crashed = false := by
  intro fuel
  induction fuel with
  | zero => intro t s h1 _ _ _ _; exact ⟨by simp [flushGo], by simp [flushGo, h1]⟩
  | succ fuel ih =>
      intro t s h1 h2 h3 hcb hle
      rcases hfr : s.frames with _ | ⟨g, rest⟩
      · exact absurd hfr h2
      have ht10 : (t : ℚ) - 10 ≤ 0 := by
        have : t ≤ 10 := by omega
        have : (t : ℚ) ≤ 10 := by exact_mod_cast this
        linarith
      have hg0 : 0 ≤ pyRound5 (P.dts g) :=
        pyRound5_nonneg (h3 g (by rw [hfr]; exact List.mem_cons_self _ _))
      have hpop : flushPops P t s.frames = some (g :: rest, [], 0) := by
        rw [hfr]
        unfold flushPops
        rw [if_neg (by push_neg; linarith)]
      rcases hcbv : P.cb t (g :: rest) with _ | scores
      · have hc := hcb t (g :: rest)
        rw [hcbv] at hc
        simp at hc
      · show (flushGo P (fuel + 1) t s).cbCount = s.cbCount + (fuel + 1) ∧
          (flushGo P (fuel + 1) t s).crashed = false
        unfold flushGo
        rw [hpop]
        dsimp only
        rw [hcbv]
        have := ih (t + 1)
          { s with frames := g :: rest, removed := s.removed ++ [],
                   accFrame := s.accFrame - 0, o := s.o ++ scores,
                   cbCount := s.cbCount + 1 }
          (by show s.crashed = false; exact h1)
          (by intro hc; cases hc)
          (by
            intro x hx
            exact h3 x (by rw [hfr]; exact hx))
          hcb (by omega)
        obtain ⟨ha, hb⟩ := this
        constructor
        · rw [ha]
          show s.cbCount + 1 + fuel = s.cbCount + (fuel + 1)
          omega
        · exact hb

/-- Five one-second frames: a 5-second session. -/
def c3fs : List AFrame :=
  [mkPlain 1 0, mkPlain 1 1, mkPlain 1 2, mkPlain 1 3, mkPlain 1 4]

/-- **C3, counterexample.** A 5-second session (5 frames of 1 s) emits
*five* scores, not zero: `stream_finished` flushes one score per full
second regardless of the 11-second warm-up. -/
theorem c3_counterexample :
    ((c3fs.map plainParams.dur).sum < 11) ∧
    ¬ ((streamFinished plainParams
        (c3fs.foldl (addFrame plainParams) MW.init)).cbCount = 0) := by
  with_unfolding_all decide

/-- **C3 (amended).** While frames are being fed, no score is emitted as
long as the accumulated session duration stays below 11 s; but
`stream_finished` then flushes one score per full second, so a session of
total duration `T < 11` s invokes the callback `⌊T⌋` times in total — zero
only when `T < 1` s.  (Stated for sessions whose fractional part is at
most 0.99, avoiding the mode-0 ceiling correction.) -/
theorem c3_theorem {α : Type} (P : MWParams α) (fs : List α)
    (hdur : ∀ f ∈ fs, 0 < P.dur f)
    (hrep : ∀ f ∈ fs, ∃ f', P.setRep f = some f' ∧ P.dur f' = P.dur f ∧
      0 ≤ P.dts f')
    (hcb : ∀ u fr, (P.cb u fr).isSome)
    (hsum : (fs.map P.dur).sum < 11)
    (hfract : (fs.map P.dur).sum - Int.floor ((fs.map P.dur).sum) ≤ 99/100) :
    (fs.foldl (addFrame P) MW.init).cbCount = 0 ∧
    (streamFinished P (fs.foldl (addFrame P) MW.init)).cbCount
      = (Int.floor ((fs.map P.dur).sum)).toNat := by
  have hw := warm_foldl P fs MW.init rfl rfl rfl rfl hdur hrep
    (by show (0:ℚ) + _ < 11; simpa using hsum)
    (by intro g hg; cases hg)
  obtain ⟨hc, hl, hcnt, _, haccp, hdts, hlen⟩ := hw
  have haccp' : (fs.foldl (addFrame P) MW.init).accPvs = (fs.map P.dur).sum := by
    rw [haccp]
    show (0:ℚ) + _ = _
    rw [zero_add]
  refine ⟨hcnt, ?_⟩
  unfold streamFinished
  rw [if_neg (by rw [hc]; simp)]
  rw [haccp', hl, if_neg (not_lt.mpr hfract)]
  simp only [Nat.cast_zero, sub_zero, Nat.zero_add]
  by_cases hfs0 : fs = []
  · subst hfs0
    simp only [List.map_nil, List.sum_nil, List.foldl_nil]
    rw [show Int.floor ((0:ℚ)) = 0 by exact Int.floor_zero]
    simp [flushGo, MW.init]
  · have hnonempty : (fs.foldl (addFrame P) MW.init).frames ≠ [] := by
      intro hempty
      rw [hempty] at hlen
      simp [MW.init] at hlen
      exact hfs0 (List.length_eq_zero.mp hlen.symm)
    have hge0 : (0:ℚ) ≤ (fs.map P.dur).sum :=
      List.sum_nonneg (by
        intro x hx
        obtain ⟨g, hg, rfl⟩ := List.mem_map.mp hx
        exact le_of_lt (hdur g hg))
    have hfl10 : Int.floor ((fs.map P.dur).sum) ≤ 10 := by
      have : Int.floor ((fs.map P.dur).sum) < 11 :=
        Int.floor_lt.mpr (by exact_mod_cast hsum)
      omega
    have hfl0 : 0 ≤ Int.floor ((fs.map P.dur).sum) :=
      Int.floor_nonneg.mpr hge0
    have hcount := flushGo_count P (Int.floor ((fs.map P.dur).sum)).toNat 1
      (fs.foldl (addFrame P) MW.init) hc hnonempty hdts hcb (by omega)
    rw [hcount.1, hcnt]
    omega

/-- Witness for C3: a 2-second session emits `⌊2⌋ = 2` scores in total,
none during frame feeding. -/
theorem c3_witness :
    (([mkPlain 1 0, mkPlain 1 1].map plainParams.dur).sum < 11) ∧
    (([mkPlain 1 0, mkPlain 1 1].foldl (addFrame plainParams) MW.init).cbCount = 0 ∧
      (streamFinished plainParams
        ([mkPlain 1 0, mkPlain 1 1].foldl (addFrame plainParams) MW.init)).cbCount
        = (Int.floor (([mkPlain 1 0, mkPlain 1 1].map plainParams.dur).sum)).toNat) := by
  have hsum : (([mkPlain 1 0, mkPlain 1 1].map plainParams.dur).sum) = 2 := by
    norm_num [plainParams, mkPlain]
  refine ⟨by rw [hsum]; norm_num, c3_theorem plainParams _ ?_ ?_ ?_ ?_ ?_⟩
  · intro f hf
    fin_cases hf <;> norm_num [plainParams, mkPlain]
  · intro f hf
    refine ⟨_, rfl, rfl, ?_⟩
    fin_cases hf <;> norm_num [plainParams, mkPlain]
  · intro u fr; rfl
  · rw [hsum]; norm_num
  · rw [hsum]; norm_num

/-!
## Integration module Pq (`p1203Pq.py`): stalling events

`P1203Pq.__init__` filters the stalling events; `_calc_stalling_features`
and `_calc_stalling_impact` consume exactly the retained lists
`self.l_buff` / `self.p_buff`.
-/

/-- The stalling-event filter in `P1203Pq.__init__`: iterate over
`zip(l_buff, p_buff)`, drop events with `p > max_dur` (outside media
range) and events with `l == 0` (zero duration), keep the rest in order. -/
def pqFilterStalling : List ℚ → List ℚ → ℚ → List ℚ × List ℚ
  | l :: ls, p :: ps, m =>
      let r := pqFilterStalling ls ps m
      if p > m then r
      else if l = 0 then r
      else (l :: r.1, p :: r.2)
  | _, _, _ => ([], [])

/-- **C6, counterexample.** An event at negative position `p = -5` and an
event with negative duration `l = -2` are both *retained* by the filter
(the code only checks `p > max_dur` and `l == 0`), although the claim's
condition `0 ≤ p ∧ l > 0` rejects them. -/
theorem c6_counterexample :
    pqFilterStalling [1, -2] [-5, 3] 10 = ([1, -2], [-5, 3]) ∧
    ¬ (0 ≤ (-5 : ℚ)) ∧ ¬ ((-2 : ℚ) > 0) := by
  with_unfolding_all decide

/-- **C6 (amended).** An event `(p, l)` is retained iff `p ≤ session
duration` and `l ≠ 0`: the code places no lower bound on `p` and does not
require `l > 0`, only `l ≠ 0`.  The retained lists (used verbatim by the
stalling features) are exactly the correspondingly filtered `zip`. -/
theorem c6_theorem :
    ∀ (ls ps : List ℚ) (m : ℚ),
    pqFilterStalling ls ps m =
      (((ls.zip ps).filter (fun e => decide (e.2 ≤ m ∧ e.1 ≠ 0))).map Prod.fst,
       ((ls.zip ps).filter (fun e => decide (e.2 ≤ m ∧ e.1 ≠ 0))).map Prod.snd) := by
  intro ls
  induction ls with
  | nil => intro ps m; cases ps <;> rfl
  | cons l ls ih =>
      intro ps m
      cases ps with
      | nil => rfl
      | cons p ps =>
          show pqFilterStalling (l :: ls) (p :: ps) m = _
          unfold pqFilterStalling
          rw [ih ps m]
          by_cases hp : p > m
          · rw [if_pos hp]
            simp only [List.zip_cons_cons, List.filter_cons]
            rw [show (decide ((l, p).2 ≤ m ∧ (l, p).1 ≠ 0)) = false by
              simp only [decide_eq_false_iff_not]
              intro hcl
              exact absurd hcl.1 (not_le.mpr hp)]
            simp
          · rw [if_neg hp]
            by_cases hl : l = 0
            · rw [if_pos hl]
              simp only [List.zip_cons_cons, List.filter_cons]
              rw [show (decide ((l, p).2 ≤ m ∧ (l, p).1 ≠ 0)) = false by
                simp only [decide_eq_false_iff_not]
                intro hcl
                exact absurd hl hcl.2]
              simp
            · rw [if_neg hl]
              simp only [List.zip_cons_cons, List.filter_cons]
              rw [show (decide ((l, p).2 ≤ m ∧ (l, p).1 ≠ 0)) = true by
                simp only [decide_eq_true_eq]
                exact ⟨not_lt.mp hp, hl⟩]
              simp

/-!
### C7: zero stalling gives `stall_impact = 1` and `O23 = 5`

The stalling impact multiplies three exponentials, so this part of Pq is
embedded over `ℝ` with `Real.exp`/`Real.log`.
-/

/-- `utils.exponential`: `b + (a-b)·exp(-(x-c)·ln(0.5)/(-(d-c)))`. -/
noncomputable def exponentialHelper (a b c d x : ℝ) : ℝ :=
  b + (a - b) * Real.exp (-(x - c) * Real.log (1/2) / (-(d - c)))

/-- Pq coefficient `s1`. -/
noncomputable def coeffS1 : ℝ := 9.35158684
/-- Pq coefficient `s2`. -/
noncomputable def coeffS2 : ℝ := 0.91890815
/-- Pq coefficient `s3`. -/
noncomputable def coeffS3 : ℝ := 11.0567558
/-- Pq coefficient `c_ref7`. -/
noncomputable def coeffCRef7 : ℝ := 0.48412879
/-- Pq coefficient `c_ref8`. -/
noncomputable def coeffCRef8 : ℝ := 10

/-- `P1203Pq._calc_stalling_features`: weighted total stalling length,
number of stalls, and average stalling interval (0 unless more than one
stall). -/
noncomputable def calcStallingFeatures (lbuff pbuff : List ℝ)
    (duration : ℝ) : ℝ × ℕ × ℝ :=
  let total := ((pbuff.zip lbuff).map
    (fun e => e.2 * exponentialHelper 1 coeffCRef7 0 coeffCRef8
      (duration - e.1))).sum
  let num := lbuff.length
  let avg : ℝ :=
    if 1 < num then
      ((pbuff.zip pbuff.tail).map (fun e => e.2 - e.1)).sum / ((num : ℝ) - 1)
    else 0
  (total, num, avg)

/-- `P1203Pq._calc_stalling_impact` (Eq. 29). -/
noncomputable def calcStallingImpact (numStalls : ℕ)
    (totalStallLen duration avgStallInterval : ℝ) : ℝ :=
  Real.exp (-(numStalls : ℝ) / coeffS1) *
    Real.exp (-totalStallLen / duration / coeffS2) *
    Real.exp (-avgStallInterval / duration / coeffS3)

/-- `O23 = 1 + 4 * stalling_impact` (Eq. 31). -/
noncomputable def calcO23 (impact : ℝ) : ℝ := 1 + 4 * impact

/-- **C7 (confirmed).** With an empty stalling list (which the `__init__`
filter maps to empty retained lists), the stalling features are all zero,
`stall_impact = exp 0 · exp 0 · exp 0 = 1` exactly, and `O23 = 5`
exactly, for any session duration. -/
theorem c7_theorem :
    ∀ (m : ℚ) (duration : ℝ),
    pqFilterStalling [] [] m = ([], []) ∧
    (calcStallingFeatures [] [] duration).1 = 0 ∧
    (calcStallingFeatures [] [] duration).2.1 = 0 ∧
    (calcStallingFeatures [] [] duration).2.2 = 0 ∧
    calcStallingImpact (calcStallingFeatures [] [] duration).2.1
      (calcStallingFeatures [] [] duration).1 duration
      (calcStallingFeatures [] [] duration).2.2 = 1 ∧
    calcO23 (calcStallingImpact (calcStallingFeatures [] [] duration).2.1
      (calcStallingFeatures [] [] duration).1 duration
      (calcStallingFeatures [] [] duration).2.2) = 5 := by
  intro m duration
  refine ⟨rfl, ?_, ?_, ?_, ?_, ?_⟩ <;>
    simp [calcStallingFeatures, calcStallingImpact, calcO23, Real.exp_zero]
  · norm_num

/-!
## Random-forest feature extraction (`rfmodel.py`): rebuffering stats
-/

/-- The event-collection loop in `get_rebuf_stats`: `index` walks over all
of `p_buff` while `l_buff[index]` is read only for nonzero positions; an
out-of-range read is a crash (`none`). -/
def collectEvents (lbuff : List ℚ) : List ℚ → ℕ → Option (List (ℚ × ℚ))
  | [], _ => some []
  | b :: bs, i =>
      if b = 0 then collectEvents lbuff bs (i + 1)
      else
        match lbuff.get? i, collectEvents lbuff bs (i + 1) with
        | some li, some rest => some ((b, li) :: rest)
        | _, _ => none

/-- `rfmodel.get_rebuf_stats`: the guard returns the zero vector (with the
last entry `duration`) only for `p_buff == []` or `p_buff == [0]`;
otherwise the filtered events feed the five statistics, and
`events[-1]` on an empty filtered list is a crash (`none`). -/
def getRebufStats (lbuff pbuff : List ℚ) (duration : ℚ) : Option (List ℚ) :=
  if pbuff = [] ∨ (pbuff.length = 1 ∧ pbuff.headI = 0) then
    some [0, 0, 0, 0, duration]
  else
    match collectEvents lbuff pbuff 0 with
    | none => none
    | some events =>
        match events.getLast? with
        | none => none
        | some last =>
            let num : ℚ := events.length
            let lenR : ℚ := (events.map Prod.snd).sum
            some [num, lenR, num / duration, lenR / duration,
              duration - last.1]

/-- The `initial_buffering_length` computed at the head of
`rfmodel.calculate`. -/
def rfInitialBufLen (lbuff pbuff : List ℚ) : ℚ :=
  if lbuff ≠ [] ∧ pbuff ≠ [] then
    (if pbuff.headI = 0 then lbuff.headI else 0)
  else 0

/-- The first five entries of the random-forest feature vector as
`rfmodel.calculate` builds them: `rebuf_stats[1] += ibl/3` and
`rebuf_stats[3] += ibl/duration/3`. -/
def rfRebufFeatures (lbuff pbuff : List ℚ) (duration : ℚ) :
    Option (List ℚ) :=
  match getRebufStats lbuff pbuff duration with
  | none => none
  | some stats =>
      let ibl := rfInitialBufLen lbuff pbuff
      let stats1 := stats.set 1 (ibl / 3 + stats.getD 1 0)
      some (stats1.set 3 (ibl / duration / 3 + stats1.getD 3 0))

/-- The five rebuffering features as asserted by the claim: the additions
go to feature 1 (`num_rebuf`, index 0) and feature 3
(`num_rebuf/duration`, index 2). -/
def rfRebufFeaturesClaimed (lbuff pbuff : List ℚ) (duration : ℚ) :
    Option (List ℚ) :=
  match getRebufStats lbuff pbuff duration with
  | none => none
  | some stats =>
      let ibl := rfInitialBufLen lbuff pbuff
      let stats1 := stats.set 0 (ibl / 3 + stats.getD 0 0)
      some (stats1.set 2 (ibl / duration / 3 + stats1.getD 2 0))

/-- The five rebuffering features as the amended claim describes them,
written directly from the filtered `zip`: additions go to feature 2
(`len_rebuf`, index 1) and feature 4 (`len_rebuf/duration`, index 3). -/
def specRebufFeatures (lbuff pbuff : List ℚ) (duration : ℚ) : List ℚ :=
  let ev := (pbuff.zip lbuff).filter (fun e => decide (e.1 ≠ 0))
  let ibl := if pbuff ≠ [] ∧ lbuff ≠ [] ∧ pbuff.headI = 0 then lbuff.headI
    else 0
  if ev = [] then
    [0, ibl / 3, 0, ibl / (3 * duration), duration]
  else
    let n : ℚ := ev.length
    let s : ℚ := (ev.map Prod.snd).sum
    [n, s + ibl / 3, n / duration, s / duration + ibl / (3 * duration),
      duration - (ev.getLastD (0, 0)).1]

/-- **C4, counterexample.** For a single initial buffering event of 2 s
(`l_buff = [2]`, `p_buff = [0]`, duration 10) the code adds `2/3` to
feature 2 (`len_rebuf`) and `2/30` to feature 4 (`len_rebuf/duration`),
not to features 1 and 3 as the claim says: the two vectors differ. -/
theorem c4_counterexample :
    rfRebufFeatures [2] [0] 10 = some [0, 2/3, 0, 1/15, 10] ∧
    rfRebufFeaturesClaimed [2] [0] 10 = some [2/3, 0, 1/15, 0, 10] ∧
    rfRebufFeatures [2] [0] 10 ≠ rfRebufFeaturesClaimed [2] [0] 10 := by
  with_unfolding_all decide

theorem zip_left_total {α β : Type} {x : α} :
    ∀ {ps : List α} {ls : List β}, ps.length ≤ ls.length → x ∈ ps →
    ∃ y, (x, y) ∈ ps.zip ls := by
  intro ps
  induction ps with
  | nil => intro ls _ hx; cases hx
  | cons p ps ih =>
      intro ls hlen hx
      cases ls with
      | nil => simp at hlen
      | cons l ls =>
          rcases List.mem_cons.mp hx with rfl | hx
          · exact ⟨l, List.mem_cons_self _ _⟩
          · obtain ⟨y, hy⟩ := @ih ls
              (by simp only [List.length_cons] at hlen; omega) hx
            exact ⟨y, List.mem_cons_of_mem _ hy⟩

theorem collectEvents_eq (lbuff : List ℚ) :
    ∀ (bs : List ℚ) (i : ℕ), i + bs.length ≤ lbuff.length →
    collectEvents lbuff bs i =
      some ((bs.zip (lbuff.drop i)).filter (fun e => decide (e.1 ≠ 0))) := by
  intro bs
  induction bs with
  | nil => intro i _; rfl
  | cons b bs ih =>
      intro i hlen
      have hi : i < lbuff.length := by
        simp only [List.length_cons] at hlen
        omega
      have hdrop : lbuff.drop i = lbuff[i] :: lbuff.drop (i + 1) :=
        List.drop_eq_getElem_cons hi
      have hget : lbuff.get? i = some lbuff[i] := by
        rw [List.get?_eq_getElem?, List.getElem?_eq_getElem hi]
      unfold collectEvents
      rw [hdrop]
      by_cases hb : b = 0
      · rw [if_pos hb, ih (i + 1) (by simp only [List.length_cons] at hlen; omega)]
        simp only [List.zip_cons_cons, List.filter_cons]
        rw [show (decide (((b, lbuff[i]).1 ≠ 0))) = false by
          simp only [decide_eq_false_iff_not, ne_eq, not_not]; exact hb]
        simp
      · rw [if_neg hb, hget, ih (i + 1) (by simp only [List.length_cons] at hlen; omega)]
        simp only [List.zip_cons_cons, List.filter_cons]
        rw [show (decide (((b, lbuff[i]).1 ≠ 0))) = true by
          simp only [decide_eq_true_eq]; exact hb]
        simp

/-- **C4 (amended).** The five rebuffering statistics over the filtered
event list excluding `p == 0` are
`[num, len, num/duration, len/duration, duration - last_event.p]` (the
zero vector with the last entry `duration` when `p_buff` is `[]` or
`[0]`), and an initial buffering event adds `l_buff[0]/3` to feature 2
(`len_rebuf`) and `l_buff[0]/(3·duration)` to feature 4
(`len_rebuf/duration`) — not to features 1 and 3.  (When `p_buff` has two
or more entries that are all zero, the code instead raises an
`IndexError` on `events[-1]`, so that degenerate shape is excluded.) -/
theorem c4_theorem (lbuff pbuff : List ℚ) (duration : ℚ)
    (hlen : pbuff.length ≤ lbuff.length)
    (hdeg : ¬ (2 ≤ pbuff.length ∧ ∀ x ∈ pbuff, x = 0)) :
    rfRebufFeatures lbuff pbuff duration =
      some (specRebufFeatures lbuff pbuff duration) := by
  have hcoll := collectEvents_eq lbuff pbuff 0 (by simpa using hlen)
  rw [List.drop_zero] at hcoll
  unfold rfRebufFeatures getRebufStats specRebufFeatures rfInitialBufLen
  by_cases hguard : pbuff = [] ∨ (pbuff.length = 1 ∧ pbuff.headI = 0)
  · rw [if_pos hguard]
    rcases hguard with hnil | ⟨hone, hzero⟩
    · subst hnil
      simp only [List.zip_nil_left, List.filter_nil, if_pos rfl]
      simp only [ne_eq, not_true_eq_false, false_and, and_false, if_false]
      norm_num
    · rcases pbuff with _ | ⟨p0, prest⟩
      · cases hone
      · have hrest : prest = [] := by
          simp only [List.length_cons] at hone
          exact List.length_eq_zero.mp (by omega)
        subst hrest
        have hp0 : p0 = 0 := by simpa [List.headI] using hzero
        subst hp0
        rcases lbuff with _ | ⟨l0, lrest⟩
        · simp at hlen
        · simp only [List.zip_cons_cons, List.filter_cons, List.zip_nil_left,
            List.filter_nil]
          rw [show (decide (((0:ℚ), l0).1 ≠ 0)) = false by simp]
          have h13 : l0 / duration / 3 = l0 / (3 * duration) := by
            rw [div_div, mul_comm]
          simp [List.headI, h13]
  · rw [if_neg hguard, hcoll]
    by_cases hcase :
        ((pbuff.zip lbuff).filter (fun e => decide (e.1 ≠ 0))) = []
    · exfalso
      have hall : ∀ x ∈ pbuff, x = 0 := by
        intro x hx
        obtain ⟨y, hy⟩ := zip_left_total hlen hx
        have := (List.filter_eq_nil.mp hcase) _ hy
        simpa using this
      push_neg at hguard
      obtain ⟨hne, hsing⟩ := hguard
      rcases hpb : pbuff with _ | ⟨p0, prest⟩
      · exact hne hpb
      · rcases hpr : prest with _ | ⟨p1, prest2⟩
        · refine hsing (by rw [hpb, hpr]; rfl) ?_
          rw [hpb]
          have := hall p0 (by rw [hpb]; exact List.mem_cons_self _ _)
          simpa [List.headI] using this
        · refine hdeg ⟨?_, hall⟩
          rw [hpb, hpr]
          simp only [List.length_cons]
          omega
    · rcases hevl : ((pbuff.zip lbuff).filter (fun e => decide (e.1 ≠ 0)))
        with _ | ⟨e0, erest⟩
      · exact absurd hevl hcase
      rw [hevl]
      dsimp only
      rw [List.getLast?_eq_getLast (e0 :: erest) (by simp)]
      rw [if_neg (show ¬(e0 :: erest = []) by simp)]
      have hgl : ((e0 :: erest).getLast (by simp)) =
          ((e0 :: erest).getLastD (0, 0)) := by
        rw [List.getLastD_eq_getLast?, List.getLast?_eq_getLast _ (by simp)]
        rfl
      have hibl : (if lbuff ≠ [] ∧ pbuff ≠ [] then
          (if pbuff.headI = 0 then lbuff.headI else 0) else 0)
          = (if pbuff ≠ [] ∧ lbuff ≠ [] ∧ pbuff.headI = 0 then lbuff.headI
            else 0) := by
        by_cases h1 : lbuff = [] <;> by_cases h2 : pbuff = [] <;>
          by_cases h3 : pbuff.headI = 0 <;> simp [h1, h2, h3]
      have h13 : ∀ x : ℚ, x / duration / 3 = x / (3 * duration) := by
        intro x
        rw [div_div, mul_comm]
      simp only [List.set, List.getD, List.get?, Option.getD_some, hgl, hibl]
      ring_nf

/-- Witness for C4: one real rebuffer at `p = 5` plus an initial buffering
event; the code vector matches the amended description. -/
theorem c4_witness :
    ([0, 5] : List ℚ).length ≤ ([2, 3] : List ℚ).length ∧
    rfRebufFeatures [2, 3] [0, 5] 10 =
      some (specRebufFeatures [2, 3] [0, 5] 10) :=
  ⟨by with_unfolding_all decide,
    c4_theorem [2, 3] [0, 5] 10 (by with_unfolding_all decide)
      (by with_unfolding_all decide)⟩

/-!
## Pq `_calc_qdir` (`p1203Pq.py`, Clauses 8.1.2.4–8.1.2.5)
-/

/-- `np.convolve(padded, ones(5)/5, mode='valid')`: the length-5 moving
average over every window of 5 consecutive samples (the kernel is
symmetric, so convolution equals correlation). -/
def ma5 : List ℚ → List ℚ
  | a :: b :: c :: d :: e :: rest =>
      ((a + b + c + d + e) / 5) :: ma5 (b :: c :: d :: e :: rest)
  | _ => []

/-- Boundary-replicated padding: 4 copies of the first sample in front, 4
copies of the last sample behind (`ma_order - 1 = 4`). -/
def paddedO22 (o : List ℚ) : List ℚ :=
  List.replicate 4 o.headI ++ o ++ List.replicate 4 (o.getLastD 0)

/-- Python `l[0::3]`: every third element. -/
def stride3 : List ℚ → List ℚ
  | [] => []
  | [x] => [x]
  | [x, _] => [x]
  | x :: _ :: _ :: rest => x :: stride3 rest

/-- The classifier sequence `QC` over the strided moving average:
`zip(ma[0::3], ma[3::3])` steps classified as `+1` (rise > 0.2), `0`
(|step| < 0.2) or `-1` (otherwise, including steps of exactly ±0.2). -/
def qcOf (ma : List ℚ) : List ℤ :=
  ((stride3 ma).zip (stride3 (ma.drop 3))).map (fun p =>
    if p.2 - p.1 > 1/5 then 1
    else if -(1/5) < p.2 - p.1 ∧ p.2 - p.1 < 1/5 then 0
    else -1)

/-- The folding step of the `lens` loop in `_calc_qdir`: a nonzero value
is recorded when `lens` is empty or when it differs from the previously
recorded value. -/
def lensStep (lens : List (ℕ × ℤ)) (iv : ℕ × ℤ) : List (ℕ × ℤ) :=
  if iv.2 ≠ 0 then
    (if lens ≠ [] ∧ (lens.getLastD (0, 0)).2 ≠ iv.2 then lens ++ [iv]
     else if lens = [] then lens ++ [iv] else lens)
  else lens

/-- The `lens` list built by `_calc_qdir`'s `for index, val in
enumerate(QC)` loop. -/
def lensFold (qc : List ℤ) : List (ℕ × ℤ) :=
  qc.enum.foldl lensStep []

/-- `q_dir_changes_longest` exactly as `_calc_qdir` computes it. -/
def calcQdirLongest (o : List ℚ) : ℕ :=
  let qc := qcOf (ma5 (paddedO22 o))
  let lens := lensFold qc
  if lens ≠ [] then
    let full := (0, 0) :: lens ++ [(qc.length, (0 : ℤ))]
    let distances := (full.zip full.tail).map (fun p => p.2.1 - p.1.1)
    (distances.foldl max 0) * 3
  else qc.length * 3

/-- `q_dir_changes_longest` as the claim words it: the positions of *all*
nonzero classifications, bracketed by sentinels at `0` and `len(QC)`. -/
def specQdirClaimed (o : List ℚ) : ℕ :=
  let qc := qcOf (ma5 (paddedO22 o))
  let pos := (qc.enum.filter (fun iv => decide (iv.2 ≠ 0))).map Prod.fst
  let full := 0 :: pos ++ [qc.length]
  (((full.zip full.tail).map (fun p => p.2 - p.1)).foldl max 0) * 3

/-- The recorded direction *changes* of `QC`: the first nonzero
classification, then every nonzero classification differing from the
previously recorded one (`last` carries the recorded sign). -/
def changesAux : List ℤ → ℕ → Option ℤ → List (ℕ × ℤ)
  | [], _, _ => []
  | v :: rest, i, last =>
      if v = 0 then changesAux rest (i + 1) last
      else if last = some v then changesAux rest (i + 1) last
      else (i, v) :: changesAux rest (i + 1) (some v)

theorem changesAux_nil (i : ℕ) (last : Option ℤ) :
    changesAux [] i last = [] := rfl

theorem changesAux_cons (v : ℤ) (rest : List ℤ) (i : ℕ) (last : Option ℤ) :
    changesAux (v :: rest) i last =
      if v = 0 then changesAux rest (i + 1) last
      else if last = some v then changesAux rest (i + 1) last
      else (i, v) :: changesAux rest (i + 1) (some v) := rfl

/-- `q_dir_changes_longest` as the amended claim words it: the max gap
between consecutive *direction changes*, bracketed by sentinels. -/
def specQdirAmended (o : List ℚ) : ℕ :=
  let qc := qcOf (ma5 (paddedO22 o))
  let pos := (changesAux qc 0 none).map Prod.fst
  let full := 0 :: pos ++ [qc.length]
  (((full.zip full.tail).map (fun p => p.2 - p.1)).foldl max 0) * 3

/-- **C5, counterexample.** For `O22 = [1,1,2,3,4,4]` the classifier is
`QC = [1, 1, 1]` (three rises): the code records only the first `1` as a
direction change and returns `max(0, 3)·3 = 9`, while the claim's reading
(max distance between consecutive nonzero classifications, with sentinels
at `0` and `len(QC) = 3`) gives `max(0, 1, 1, 1)·3 = 3`. -/
theorem c5_counterexample :
    calcQdirLongest [1, 1, 2, 3, 4, 4] = 9 ∧
    specQdirClaimed [1, 1, 2, 3, 4, 4] = 3 := by
  with_unfolding_all decide

theorem lensFold_eq_changes :
    ∀ (l : List ℤ) (i : ℕ) (acc : List (ℕ × ℤ)),
    (∀ e ∈ acc, e.2 ≠ 0) →
    (List.enumFrom i l).foldl lensStep acc
      = acc ++ changesAux l i (acc.getLast?.map Prod.snd) := by
  intro l
  induction l with
  | nil => intro i acc _; simp [changesAux]
  | cons v rest ih =>
      intro i acc hnz
      show List.foldl lensStep (lensStep acc (i, v)) (List.enumFrom (i + 1) rest)
        = acc ++ changesAux (v :: rest) i (acc.getLast?.map Prod.snd)
      by_cases hv : v = 0
      · subst hv
        have hstep : lensStep acc (i, 0) = acc := by
          unfold lensStep
          simp
        rw [hstep, ih (i + 1) acc hnz, changesAux_cons]
        rw [if_pos rfl]
      · rcases hlast : acc.getLast? with _ | a
        · have hacc : acc = [] := List.getLast?_eq_none.mp hlast
          subst hacc
          have hstep : lensStep [] (i, v) = [(i, v)] := by
            unfold lensStep
            simp [hv]
          rw [hstep, ih (i + 1) [(i, v)] (by simpa using hv)]
          show [(i, v)] ++ changesAux rest (i + 1) (some v)
            = [] ++ changesAux (v :: rest) i none
          rw [changesAux_cons, if_neg hv, if_neg (by simp)]
          rfl
        · have hacc : acc ≠ [] := by
            intro h; rw [h] at hlast; cases hlast
          have hamem : a ∈ acc := by
            obtain ⟨hne, heq⟩ := List.mem_getLast?_eq_getLast
              (by rw [hlast] : acc.getLast? = some a)
            rw [heq]
            exact List.getLast_mem hne
          have hw : a.2 ≠ 0 := hnz a hamem
          have hgd : acc.getLastD (0, 0) = a := by
            rw [List.getLastD_eq_getLast?, hlast]
            rfl
          have hmap : acc.getLast?.map Prod.snd = some a.2 := by
            rw [hlast]
            rfl
          simp only [Option.map_some']
          by_cases hwv : a.2 = v
          · have hstep : lensStep acc (i, v) = acc := by
              unfold lensStep
              rw [if_pos hv, if_neg (by rw [hgd]; exact fun hc => hc.2 hwv),
                if_neg hacc]
            rw [hstep, ih (i + 1) acc hnz, hmap, changesAux_cons]
            rw [if_neg hv, if_pos (by rw [hwv])]
          · have hstep : lensStep acc (i, v) = acc ++ [(i, v)] := by
              unfold lensStep
              rw [if_pos hv, if_pos ⟨hacc, by rw [hgd]; exact hwv⟩]
            rw [hstep, ih (i + 1) (acc ++ [(i, v)]) (by
              intro e he
              rcases List.mem_append.mp he with he | he
              · exact hnz e he
              · rw [List.mem_singleton.mp he]; exact hv)]
            rw [List.getLast?_concat]
            rw [changesAux_cons, if_neg hv, if_neg (by simpa using hwv)]
            rw [List.append_assoc]
            rfl

theorem fstDiffs :
    ∀ (ps : List (ℕ × ℤ)),
    ((ps.zip ps.tail).map (fun p => p.2.1 - p.1.1))
      = (((ps.map Prod.fst).zip ((ps.map Prod.fst).tail)).map
          (fun p => p.2 - p.1)) := by
  intro ps
  induction ps with
  | nil => rfl
  | cons a ps ih =>
      cases ps with
      | nil => rfl
      | cons b rest =>
          show (b.1 - a.1) :: (((b :: rest).zip rest).map _) = _
          simp only [List.map_cons, List.tail_cons, List.zip_cons_cons,
            List.map_cons] at ih ⊢
          rw [ih]

/-- **C5 (amended).** After the length-5 boundary-replicated moving
average, striding by 3 and classifying steps, `q_dir_changes_longest`
equals the max distance between consecutive recorded *direction changes*
— the first nonzero classification and each subsequent nonzero
classification differing from the previously recorded one — bracketed by
sentinels at `0` and `len(QC)`, multiplied by 3 (equal to `len(QC)·3`
when there is no nonzero classification).  Runs of equal nonzero
classifications count as a single change, contrary to the claim's
"consecutive nonzero classifications". -/
theorem c5_theorem (o : List ℚ) : calcQdirLongest o = specQdirAmended o := by
  unfold calcQdirLongest specQdirAmended
  dsimp only
  have hch : lensFold (qcOf (ma5 (paddedO22 o)))
      = changesAux (qcOf (ma5 (paddedO22 o))) 0 none := by
    unfold lensFold
    rw [show (qcOf (ma5 (paddedO22 o))).enum
        = List.enumFrom 0 (qcOf (ma5 (paddedO22 o))) from rfl]
    rw [lensFold_eq_changes _ 0 [] (by intro e he; cases he)]
    rfl
  rw [hch]
  rcases hcs : changesAux (qcOf (ma5 (paddedO22 o))) 0 none with _ | ⟨c0, crest⟩
  · rw [if_neg (by simp)]
    simp
  · rw [if_pos (by simp)]
    rw [fstDiffs]
    simp [List.map_append]

/-!
## `r_from_mos` (`utils.py`) and the MOS↔R round trip
-/

set_option maxRecDepth 8000 in
/-- `utils.R_FROM_MOS_KEYS`: the 389 strictly increasing anchor MOS values (the source's decimal literals as exact rationals). -/
def R_FROM_MOS_KEYS : List ℚ :=
  [mkRat 21 20, mkRat 67213741 64000000, mkRat 8409359 8000000,
   mkRat 107751 102400, mkRat 5267360000000001 5000000000000000,
   mkRat 67508329 64000000, mkRat 10562921250000001 10000000000000000,
   mkRat 10578947968749999 10000000000000000, mkRat 8477 8000,
   mkRat 67934853 64000000, mkRat 10634653750000003 10000000000000000,
   mkRat 68196751 64000000, mkRat 33369 31250,
   mkRat 10701660156250001 10000000000000000, mkRat 8581181 8000000,
   mkRat 68816139 64000000, mkRat 1077979 1000000,
   mkRat 5404137265625001 5000000000000000, mkRat 69363 64000,
   mkRat 69560743 64000000, mkRat 5450480000000001 5000000000000000,
   mkRat 69979161 64000000, mkRat 8774969 8000000, mkRat 563423 512000,
   mkRat 1104117 1000000, mkRat 5539574140625001 5000000000000000,
   mkRat 8894627 8000000, mkRat 11158569843750001 10000000000000000,
   mkRat 28 25, mkRat 71952433 64000000, mkRat 9029013 8000000,
   mkRat 11331089218750001 10000000000000000,
   mkRat 11377030000000001 10000000000000000,
   mkRat 5712041015625001 5000000000000000, mkRat 9177791 8000000,
   mkRat 73737559 64000000, mkRat 18081 15625,
   mkRat 5811635703125001 5000000000000000, mkRat 2989 2560,
   mkRat 11729362968750001 10000000000000000, mkRat 1178401 1000000,
   mkRat 5919857890625001 5000000000000000, mkRat 9517179 8000000,
   mkRat 5977138671875001 5000000000000000, mkRat 37541 31250,
   mkRat 6036497578125001 5000000000000000,
   mkRat 6066948125000001 5000000000000000, mkRat 78053227 64000000,
   mkRat 12258750000000003 10000000000000000,
   mkRat 6161344765625001 5000000000000000,
   mkRat 6193814375000001 5000000000000000,
   mkRat 12453561093750003 10000000000000000,
   mkRat 12520480000000003 10000000000000000,
   mkRat 6294189453125001 5000000000000000,
   mkRat 12657251250000001 10000000000000000,
   mkRat 6363545234375001 5000000000000000, mkRat 1279789 1000000,
   mkRat 82365717 64000000, mkRat 12942343750000003 10000000000000000,
   mkRat 13015984843750001 10000000000000000, mkRat 20454 15625,
   mkRat 6583031328125001 5000000000000000, mkRat 10593989 8000000,
   mkRat 27279 20480, mkRat 1339807 1000000, mkRat 86254189 64000000,
   mkRat 13557258750000003 10000000000000000, mkRat 87284407 64000000,
   mkRat 13720000000000003 10000000000000000, mkRat 88337193 64000000,
   mkRat 6943120625000001 5000000000000000,
   mkRat 6985328984375001 5000000000000000,
   mkRat 14055930000000003 10000000000000000, mkRat 724073 512000,
   mkRat 3557253437500001 2500000000000000, mkRat 91627599 64000000,
   mkRat 14405440000000003 10000000000000000, mkRat 92767297 64000000,
   mkRat 7292578125000001 5000000000000000,
   mkRat 14676231718750001 10000000000000000, mkRat 1476811 1000000,
   mkRat 7430392265625001 5000000000000000,
   mkRat 14954248750000003 10000000000000000,
   mkRat 15048496093750003 10000000000000000,
   mkRat 15143520000000001 10000000000000000,
   mkRat 15239313906250003 10000000000000000,
   mkRat 7667935625000001 5000000000000000,
   mkRat 3858296367187501 2500000000000000, mkRat 497 320,
   mkRat 15630058281250003 10000000000000000, mkRat 12583683 8000000,
   mkRat 15829879843750003 10000000000000000,
   mkRat 15930880000000003 10000000000000000,
   mkRat 8016298828124999 5000000000000000,
   mkRat 8067513125000001 5000000000000000,
   mkRat 16238159218750003 10000000000000000,
   mkRat 8170995000000001 5000000000000000, mkRat 105257677 64000000,
   mkRat 8275859375000001 5000000000000000,
   mkRat 16657603593750003 10000000000000000,
   mkRat 16764160000000001 10000000000000000, mkRat 107976841 64000000,
   mkRat 8489630625000001 5000000000000000,
   mkRat 4271948242187501 2500000000000000, mkRat 1719697 1000000,
   mkRat 8653392890624999 5000000000000000,
   mkRat 3483446750000001 2000000000000000,
   mkRat 17528307343750003 10000000000000000, mkRat 441 250,
   mkRat 17752305156250003 10000000000000000, mkRat 14292173 8000000,
   mkRat 8989363359375001 5000000000000000, mkRat 1809283 1000000,
   mkRat 18207519531250003 10000000000000000,
   mkRat 3664557750000001 2000000000000000,
   mkRat 9219315546875001 5000000000000000, mkRat 115969 62500,
   mkRat 4668002226562501 2500000000000000,
   mkRat 4697382812500001 2500000000000000,
   mkRat 18907600468750003 10000000000000000, mkRat 1902621 1000000,
   mkRat 9572676640625001 5000000000000000,
   mkRat 3853004750000001 2000000000000000,
   mkRat 19385214843750003 10000000000000000,
   mkRat 19505919999999999 10000000000000000,
   mkRat 19627132656250001 10000000000000000,
   mkRat 3949769250000001 2000000000000000,
   mkRat 9935527109375001 5000000000000000,
   mkRat 19993750000000003 10000000000000000, mkRat 128748333 64000000,
   mkRat 4048115750000001 2000000000000000,
   mkRat 5091174648437501 2500000000000000, mkRat 64029 31250,
   mkRat 2061431640625001 1000000000000000,
   mkRat 20739801250000003 10000000000000000, mkRat 133540659 64000000,
   mkRat 2099209 1000000, mkRat 21118880781250007 10000000000000000,
   mkRat 5311523437500001 2500000000000000,
   mkRat 21373722343750003 10000000000000000, mkRat 67193 31250,
   mkRat 21630200156250003 10000000000000000, mkRat 17407229 8000000,
   mkRat 1120679 512000, mkRat 5504467500000001 2500000000000000,
   mkRat 141746269 64000000, mkRat 5569552187500001 2500000000000000,
   mkRat 143417127 64000000, mkRat 5635000000000001 2500000000000000,
   mkRat 11335711953125003 5000000000000000, mkRat 18242553 8000000,
   mkRat 146785891 64000000, mkRat 2306773 1000000,
   mkRat 4640097656250001 2000000000000000, mkRat 18666851 8000000,
   mkRat 150188479 64000000, mkRat 5900160000000001 2500000000000000,
   mkRat 23734627656250007 10000000000000000,
   mkRat 5967226562500001 2500000000000000,
   mkRat 12001734609375003 5000000000000000, mkRat 2413831 1000000,
   mkRat 24273422031250007 10000000000000000,
   mkRat 24408798750000003 10000000000000000, mkRat 50267 20480,
   mkRat 2468032000000001 1000000000000000,
   mkRat 6204112851562501 2500000000000000, mkRat 19962257 8000000,
   mkRat 160572307 64000000, mkRat 12613125000000003 5000000000000000,
   mkRat 12681647890625003 5000000000000000,
   mkRat 25500553750000003 10000000000000000, mkRat 164083311 64000000,
   mkRat 25775680000000003 10000000000000000,
   mkRat 25913535156250003 10000000000000000,
   mkRat 6512894062500001 2500000000000000, mkRat 167614699 64000000,
   mkRat 2632819 1000000, mkRat 13233374765625001 5000000000000000,
   mkRat 6811 2560, mkRat 6686085273437501 2500000000000000,
   mkRat 168021 62500, mkRat 6755629726562501 2500000000000000,
   mkRat 27161811250000003 10000000000000000, mkRat 1397823 512000,
   mkRat 3430096250000001 1250000000000000, mkRat 176514709 64000000,
   mkRat 22176147 8000000, mkRat 27860044843750003 10000000000000000,
   mkRat 28000000000000007 10000000000000000,
   mkRat 7035010664062501 2500000000000000,
   mkRat 5656033250000001 2000000000000000,
   mkRat 5684072843750001 2000000000000000,
   mkRat 28560630000000007 10000000000000000, mkRat 1469489 512000,
   mkRat 23073071 8000000, mkRat 2898176859375001 1000000000000000,
   mkRat 14561120000000003 5000000000000000,
   mkRat 7315686601562501 2500000000000000, mkRat 188181 64000,
   mkRat 14771918984375003 5000000000000000,
   mkRat 29684410000000003 10000000000000000, mkRat 190879941 64000000,
   mkRat 23972459 8000000, mkRat 3010615234375001 1000000000000000,
   mkRat 15123360000000001 5000000000000000, mkRat 194478529 64000000,
   mkRat 24422237 8000000, mkRat 30668291718750007 10000000000000000,
   mkRat 30808750000000003 10000000000000000, mkRat 198074653 64000000,
   mkRat 3108952875000001 1000000000000000,
   mkRat 31229836093750007 10000000000000000,
   mkRat 15685040000000001 5000000000000000, mkRat 64533 20480,
   mkRat 25320281 8000000, mkRat 3179036546875001 1000000000000000,
   mkRat 15965145000000003 5000000000000000, mkRat 205248757 64000000,
   mkRat 206143 64000, mkRat 3234945984375001 1000000000000000,
   mkRat 16244480000000001 5000000000000000, mkRat 208821361 64000000,
   mkRat 26214069 8000000, mkRat 16453349609375003 5000000000000000,
   mkRat 6609134000000001 2000000000000000, mkRat 212380749 64000000,
   mkRat 3332315875000001 1000000000000000,
   mkRat 16730831796875003 5000000000000000,
   mkRat 33600000000000003 10000000000000000,
   mkRat 16869080703125001 5000000000000000,
   mkRat 33876141250000007 10000000000000000,
   mkRat 34013932968750007 10000000000000000, mkRat 3415153 1000000,
   mkRat 1755593 512000, mkRat 34426113750000007 10000000000000000,
   mkRat 34563087343750003 10000000000000000, mkRat 108437 31250,
   mkRat 222952737 64000000, mkRat 34972656250000007 10000000000000000,
   mkRat 35108706718750007 10000000000000000,
   mkRat 8811127500000001 2500000000000000,
   mkRat 4422507441406251 1250000000000000,
   mkRat 17757674375000003 5000000000000000,
   mkRat 8912592773437501 2500000000000000,
   mkRat 8946280000000001 2500000000000000, mkRat 229885369 64000000,
   mkRat 3605377125000001 1000000000000000,
   mkRat 36187660468750003 10000000000000000,
   mkRat 36321250000000003 10000000000000000, mkRat 233309013 64000000,
   mkRat 4573437968750001 1250000000000000,
   mkRat 18360077421875003 5000000000000000, mkRat 57582 15625,
   mkRat 378721 102400, mkRat 4639515781250001 1250000000000000,
   mkRat 9311858554687501 2500000000000000, mkRat 3737839 1000000,
   mkRat 240057517 64000000, mkRat 37639218750000007 10000000000000000,
   mkRat 7553815718750001 2000000000000000,
   mkRat 37898560000000003 10000000000000000,
   mkRat 3802765640625001 1000000000000000,
   mkRat 19078180625000003 5000000000000000,
   mkRat 9571166992187501 2500000000000000, mkRat 3841257 1000000,
   mkRat 246656389 64000000, mkRat 38667133750000007 10000000000000000,
   mkRat 38793782343750003 10000000000000000,
   mkRat 3892000000000001 1000000000000000,
   mkRat 39045780156250007 10000000000000000,
   mkRat 9792779062500001 2500000000000000, mkRat 251494411 64000000,
   mkRat 3942043 1000000, mkRat 3954439453125001 1000000000000000,
   mkRat 39667888750000007 10000000000000000,
   mkRat 7958181218750001 2000000000000000,
   mkRat 19956720000000001 5000000000000000, mkRat 256227097 64000000,
   mkRat 4015703125000001 1000000000000000,
   mkRat 8055615093750001 2000000000000000, mkRat 4039861 1000000,
   mkRat 259319221 64000000, mkRat 32510499 8000000, mkRat 2086763 512000,
   mkRat 63868 15625, mkRat 262357809 64000000,
   mkRat 8222149250000001 2000000000000000,
   mkRat 8245505843750001 2000000000000000,
   mkRat 4134375000000001 1000000000000000,
   mkRat 4145940203125001 1000000000000000,
   mkRat 4157447875000001 1000000000000000, mkRat 266809431 64000000,
   mkRat 65317 15625, mkRat 4191619140625001 1000000000000000,
   mkRat 4202890125000001 1000000000000000,
   mkRat 4214100296875001 1000000000000000,
   mkRat 4225249000000001 1000000000000000,
   mkRat 4236335578125001 1000000000000000, mkRat 271831 64000,
   mkRat 272532463 64000000, mkRat 4269216000000001 1000000000000000,
   mkRat 273923041 64000000, mkRat 34326509 8000000,
   mkRat 4301513671875001 1000000000000000, mkRat 4312147 1000000,
   mkRat 276653629 64000000, mkRat 4333210875000001 1000000000000000,
   mkRat 277992967 64000000, mkRat 4354000000000001 1000000000000000,
   mkRat 4364289890625001 1000000000000000, mkRat 34996073 8000000,
   mkRat 280618051 64000000, mkRat 4394733 1000000,
   mkRat 4404736328125001 1000000000000000, mkRat 35317331 8000000,
   mkRat 4424522484375001 1000000000000000,
   mkRat 4434304000000001 1000000000000000,
   mkRat 4444010265625001 1000000000000000, mkRat 285033 64000,
   mkRat 285644443 64000000, mkRat 4472671000000001 1000000000000000,
   mkRat 286852461 64000000, mkRat 35931119 8000000,
   mkRat 4500630859375001 1000000000000000,
   mkRat 4509792000000001 1000000000000000, mkRat 289207849 64000000,
   mkRat 36222977 8000000, mkRat 290354547 64000000, mkRat 7273 1600,
   mkRat 291480133 64000000, mkRat 9126090750000003 2000000000000000,
   mkRat 4571629234375001 1000000000000000, mkRat 143129 31250,
   mkRat 2349333 512000, mkRat 36774941 8000000,
   mkRat 4605107171875001 1000000000000000, mkRat 4613259 1000000,
   mkRat 4621322453125001 1000000000000000,
   mkRat 9258593750000001 2000000000000000, mkRat 296779623 64000000,
   mkRat 4644976000000001 1000000000000000,
   mkRat 4652679390625001 1000000000000000,
   mkRat 9320582250000001 2000000000000000,
   mkRat 4667810546875001 1000000000000000,
   mkRat 4675237000000001 1000000000000000,
   mkRat 23412849140625003 5000000000000000, mkRat 37518467 8000000,
   mkRat 300604927 64000000, mkRat 4704000000000001 1000000000000000,
   mkRat 301500913 64000000, mkRat 4717806625000001 1000000000000000,
   mkRat 4724563921875001 1000000000000000,
   mkRat 4731223000000001 1000000000000000,
   mkRat 4737783203125001 1000000000000000, mkRat 37953951 8000000,
   mkRat 4750604359375001 1000000000000000, mkRat 74326 15625,
   mkRat 304833417 64000000, mkRat 4769078125000001 1000000000000000,
   mkRat 305602003 64000000, mkRat 4780881000000001 1000000000000000,
   mkRat 306344101 64000000, mkRat 38338139 8000000,
   mkRat 4797802734375001 1000000000000000, mkRat 150101 31250,
   mkRat 4808554515625001 1000000000000000,
   mkRat 4813769625000001 1000000000000000,
   mkRat 9637753343750001 2000000000000000, mkRat 38591 8000,
   mkRat 4828763953125001 1000000000000000,
   mkRat 4833542875000001 1000000000000000,
   mkRat 4838211109375001 1000000000000000, mkRat 302673 62500,
   mkRat 2481773 512000, mkRat 38812361 8000000,
   mkRat 9711528093750001 2000000000000000,
   mkRat 4859869000000001 1000000000000000,
   mkRat 4863859328125001 1000000000000000,
   mkRat 4867734375000001 1000000000000000,
   mkRat 4871493484375001 1000000000000000, mkRat 76174 15625,
   mkRat 312234321 64000000, mkRat 9764137250000001 2000000000000000,
   mkRat 4885357421875001 1000000000000000,
   mkRat 4888527000000001 1000000000000000,
   mkRat 4891576703125001 1000000000000000,
   mkRat 4894505875000001 1000000000000000,
   mkRat 4897313859375001 1000000000000000, mkRat 49 10]

set_option maxRecDepth 8000 in
/-- `utils.R_FROM_MOS_VALUES`: the corresponding R values `0, 3.25, 3.5, ..., 100`. -/
def R_FROM_MOS_VALUES : List ℚ :=
  [mkRat 0 1, mkRat 13 4, mkRat 7 2, mkRat 15 4, mkRat 4 1, mkRat 17 4,
   mkRat 9 2, mkRat 19 4, mkRat 5 1, mkRat 21 4, mkRat 11 2, mkRat 23 4,
   mkRat 6 1, mkRat 25 4, mkRat 13 2, mkRat 27 4, mkRat 7 1, mkRat 29 4,
   mkRat 15 2, mkRat 31 4, mkRat 8 1, mkRat 33 4, mkRat 17 2, mkRat 35 4,
   mkRat 9 1, mkRat 37 4, mkRat 19 2, mkRat 39 4, mkRat 10 1, mkRat 41 4,
   mkRat 21 2, mkRat 43 4, mkRat 11 1, mkRat 45 4, mkRat 23 2, mkRat 47 4,
   mkRat 12 1, mkRat 49 4, mkRat 25 2, mkRat 51 4, mkRat 13 1, mkRat 53 4,
   mkRat 27 2, mkRat 55 4, mkRat 14 1, mkRat 57 4, mkRat 29 2, mkRat 59 4,
   mkRat 15 1, mkRat 61 4, mkRat 31 2, mkRat 63 4, mkRat 16 1, mkRat 65 4,
   mkRat 33 2, mkRat 67 4, mkRat 17 1, mkRat 69 4, mkRat 35 2, mkRat 71 4,
   mkRat 18 1, mkRat 73 4, mkRat 37 2, mkRat 75 4, mkRat 19 1, mkRat 77 4,
   mkRat 39 2, mkRat 79 4, mkRat 20 1, mkRat 81 4, mkRat 41 2, mkRat 83 4,
   mkRat 21 1, mkRat 85 4, mkRat 43 2, mkRat 87 4, mkRat 22 1, mkRat 89 4,
   mkRat 45 2, mkRat 91 4, mkRat 23 1, mkRat 93 4, mkRat 47 2, mkRat 95 4,
   mkRat 24 1, mkRat 97 4, mkRat 49 2, mkRat 99 4, mkRat 25 1, mkRat 101 4,
   mkRat 51 2, mkRat 103 4, mkRat 26 1, mkRat 105 4, mkRat 53 2,
   mkRat 107 4, mkRat 27 1, mkRat 109 4, mkRat 55 2, mkRat 111 4,
   mkRat 28 1, mkRat 113 4, mkRat 57 2, mkRat 115 4, mkRat 29 1,
   mkRat 117 4, mkRat 59 2, mkRat 119 4, mkRat 30 1, mkRat 121 4,
   mkRat 61 2, mkRat 123 4, mkRat 31 1, mkRat 125 4, mkRat 63 2,
   mkRat 127 4, mkRat 32 1, mkRat 129 4, mkRat 65 2, mkRat 131 4,
   mkRat 33 1, mkRat 133 4, mkRat 67 2, mkRat 135 4, mkRat 34 1,
   mkRat 137 4, mkRat 69 2, mkRat 139 4, mkRat 35 1, mkRat 141 4,
   mkRat 71 2, mkRat 143 4, mkRat 36 1, mkRat 145 4, mkRat 73 2,
   mkRat 147 4, mkRat 37 1, mkRat 149 4, mkRat 75 2, mkRat 151 4,
   mkRat 38 1, mkRat 153 4, mkRat 77 2, mkRat 155 4, mkRat 39 1,
   mkRat 157 4, mkRat 79 2, mkRat 159 4, mkRat 40 1, mkRat 161 4,
   mkRat 81 2, mkRat 163 4, mkRat 41 1, mkRat 165 4, mkRat 83 2,
   mkRat 167 4, mkRat 42 1, mkRat 169 4, mkRat 85 2, mkRat 171 4,
   mkRat 43 1, mkRat 173 4, mkRat 87 2, mkRat 175 4, mkRat 44 1,
   mkRat 177 4, mkRat 89 2, mkRat 179 4, mkRat 45 1, mkRat 181 4,
   mkRat 91 2, mkRat 183 4, mkRat 46 1, mkRat 185 4, mkRat 93 2,
   mkRat 187 4, mkRat 47 1, mkRat 189 4, mkRat 95 2, mkRat 191 4,
   mkRat 48 1, mkRat 193 4, mkRat 97 2, mkRat 195 4, mkRat 49 1,
   mkRat 197 4, mkRat 99 2, mkRat 199 4, mkRat 50 1, mkRat 201 4,
   mkRat 101 2, mkRat 203 4, mkRat 51 1, mkRat 205 4, mkRat 103 2,
   mkRat 207 4, mkRat 52 1, mkRat 209 4, mkRat 105 2, mkRat 211 4,
   mkRat 53 1, mkRat 213 4, mkRat 107 2, mkRat 215 4, mkRat 54 1,
   mkRat 217 4, mkRat 109 2, mkRat 219 4, mkRat 55 1, mkRat 221 4,
   mkRat 111 2, mkRat 223 4, mkRat 56 1, mkRat 225 4, mkRat 113 2,
   mkRat 227 4, mkRat 57 1, mkRat 229 4, mkRat 115 2, mkRat 231 4,
   mkRat 58 1, mkRat 233 4, mkRat 117 2, mkRat 235 4, mkRat 59 1,
   mkRat 237 4, mkRat 119 2, mkRat 239 4, mkRat 60 1, mkRat 241 4,
   mkRat 121 2, mkRat 243 4, mkRat 61 1, mkRat 245 4, mkRat 123 2,
   mkRat 247 4, mkRat 62 1, mkRat 249 4, mkRat 125 2, mkRat 251 4,
   mkRat 63 1, mkRat 253 4, mkRat 127 2, mkRat 255 4, mkRat 64 1,
   mkRat 257 4, mkRat 129 2, mkRat 259 4, mkRat 65 1, mkRat 261 4,
   mkRat 131 2, mkRat 263 4, mkRat 66 1, mkRat 265 4, mkRat 133 2,
   mkRat 267 4, mkRat 67 1, mkRat 269 4, mkRat 135 2, mkRat 271 4,
   mkRat 68 1, mkRat 273 4, mkRat 137 2, mkRat 275 4, mkRat 69 1,
   mkRat 277 4, mkRat 139 2, mkRat 279 4, mkRat 70 1, mkRat 281 4,
   mkRat 141 2, mkRat 283 4, mkRat 71 1, mkRat 285 4, mkRat 143 2,
   mkRat 287 4, mkRat 72 1, mkRat 289 4, mkRat 145 2, mkRat 291 4,
   mkRat 73 1, mkRat 293 4, mkRat 147 2, mkRat 295 4, mkRat 74 1,
   mkRat 297 4, mkRat 149 2, mkRat 299 4, mkRat 75 1, mkRat 301 4,
   mkRat 151 2, mkRat 303 4, mkRat 76 1, mkRat 305 4, mkRat 153 2,
   mkRat 307 4, mkRat 77 1, mkRat 309 4, mkRat 155 2, mkRat 311 4,
   mkRat 78 1, mkRat 313 4, mkRat 157 2, mkRat 315 4, mkRat 79 1,
   mkRat 317 4, mkRat 159 2, mkRat 319 4, mkRat 80 1, mkRat 321 4,
   mkRat 161 2, mkRat 323 4, mkRat 81 1, mkRat 325 4, mkRat 163 2,
   mkRat 327 4, mkRat 82 1, mkRat 329 4, mkRat 165 2, mkRat 331 4,
   mkRat 83 1, mkRat 333 4, mkRat 167 2, mkRat 335 4, mkRat 84 1,
   mkRat 337 4, mkRat 169 2, mkRat 339 4, mkRat 85 1, mkRat 341 4,
   mkRat 171 2, mkRat 343 4, mkRat 86 1, mkRat 345 4, mkRat 173 2,
   mkRat 347 4, mkRat 87 1, mkRat 349 4, mkRat 175 2, mkRat 351 4,
   mkRat 88 1, mkRat 353 4, mkRat 177 2, mkRat 355 4, mkRat 89 1,
   mkRat 357 4, mkRat 179 2, mkRat 359 4, mkRat 90 1, mkRat 361 4,
   mkRat 181 2, mkRat 363 4, mkRat 91 1, mkRat 365 4, mkRat 183 2,
   mkRat 367 4, mkRat 92 1, mkRat 369 4, mkRat 185 2, mkRat 371 4,
   mkRat 93 1, mkRat 373 4, mkRat 187 2, mkRat 375 4, mkRat 94 1,
   mkRat 377 4, mkRat 189 2, mkRat 379 4, mkRat 95 1, mkRat 381 4,
   mkRat 191 2, mkRat 383 4, mkRat 96 1, mkRat 385 4, mkRat 193 2,
   mkRat 387 4, mkRat 97 1, mkRat 389 4, mkRat 195 2, mkRat 391 4,
   mkRat 98 1, mkRat 393 4, mkRat 197 2, mkRat 395 4, mkRat 99 1,
   mkRat 397 4, mkRat 199 2, mkRat 399 4, mkRat 100 1]

/-- `np.interp(x, xp, fp)` over the zipped point list (strictly
increasing `xp`): clamp to the end values outside the range, linear
interpolation on the first bracketing interval inside. -/
def npInterp (x : ℚ) : List (ℚ × ℚ) → ℚ
  | [] => 0
  | p :: rest =>
      match rest with
      | [] => p.2
      | q :: _ =>
          if x ≤ p.1 then p.2
          else if x ≤ q.1 then p.2 + (q.2 - p.2) * (x - p.1) / (q.1 - p.1)
          else npInterp x rest

/-- Exact rational equality as a boolean on the normalized
numerator/denominator pair; this is the equality Python's `==` computes
on the (exact) float values, see `ratBeq_iff`. -/
def ratBeq (a b : ℚ) : Bool := a.num == b.num && a.den == b.den

/-- `ratBeq` decides rational equality. -/
theorem ratBeq_iff (a b : ℚ) : ratBeq a b = true ↔ a = b := by
  constructor
  · intro h
    rcases Bool.and_eq_true .. |>.mp h with ⟨h1, h2⟩
    exact Rat.ext (eq_of_beq h1) (eq_of_beq h2)
  · rintro rfl
    simp [ratBeq]

/-- `utils.r_from_mos`: clamp the MOS into `[MOS_MIN, MOS_MAX]`; an exact
key-table hit (`MOS in R_FROM_MOS_KEYS`, i.e. equality of the exact
values) returns the tabulated R value at the first matching index
(`list.index`), otherwise `np.interp`. -/
def r_from_mos (MOS : ℚ) : ℚ :=
  let M1 := if MOS < MOS_MIN then MOS_MIN else MOS
  let M2 := if M1 > MOS_MAX then MOS_MAX else M1
  if R_FROM_MOS_KEYS.any (fun k => ratBeq M2 k) then
    R_FROM_MOS_VALUES.getD (R_FROM_MOS_KEYS.findIdx (fun k => ratBeq M2 k)) 0
  else npInterp M2 (R_FROM_MOS_KEYS.zip R_FROM_MOS_VALUES)

/-- **C8, counterexample.** At `Q = 1`, `mos_from_r` hits the lower clamp
(`1.05 + 3.85/100 + 1·(−59)·99·7e−6 = 1.047613 < 1.05`), so the round
trip returns `r_from_mos(1.05) = 0` and the error is `1 ≥ 1e-3`. -/
theorem c8_counterexample :
    (0:ℚ) ≤ 1 ∧ (1:ℚ) ≤ 100 ∧ r_from_mos (mos_from_r 1) = 0 ∧
    ¬ (|r_from_mos (mos_from_r 1) - 1| < 1/1000) := by
  with_unfolding_all decide

/-- The round trip through `mos_from_r` and `r_from_mos` lands within
`1e-3` of the start, as a boolean predicate on one R value. -/
def rtOk (v : ℚ) : Bool := decide (|r_from_mos (mos_from_r v) - v| < 1/1000)

/-- Glue: `all` over a list follows from `all` over a `take`/`drop` split. -/
theorem all_take_drop {α} (p : α → Bool) (l : List α) (m : ℕ)
    (h1 : (l.take m).all p = true) (h2 : (l.drop m).all p = true) :
    l.all p = true := by
  have h := List.take_append_drop m l
  rw [← h, List.all_append, h1, h2]
  rfl

set_option maxRecDepth 20000 in
set_option maxHeartbeats 4000000 in
theorem c8chunk0 : ((R_FROM_MOS_VALUES.drop 0).take 40).all rtOk = true := by
  with_unfolding_all decide

set_option maxRecDepth 20000 in
set_option maxHeartbeats 4000000 in
theorem c8chunk1 : ((R_FROM_MOS_VALUES.drop 40).take 40).all rtOk = true := by
  with_unfolding_all decide

set_option maxRecDepth 20000 in
set_option maxHeartbeats 4000000 in
theorem c8chunk2 : ((R_FROM_MOS_VALUES.drop 80).take 40).all rtOk = true := by
  with_unfolding_all decide

set_option maxRecDepth 20000 in
set_option maxHeartbeats 4000000 in
theorem c8chunk3 : ((R_FROM_MOS_VALUES.drop 120).take 40).all rtOk = true := by
  with_unfolding_all decide

set_option maxRecDepth 20000 in
set_option maxHeartbeats 4000000 in
theorem c8chunk4 : ((R_FROM_MOS_VALUES.drop 160).take 40).all rtOk = true := by
  with_unfolding_all decide

set_option maxRecDepth 20000 in
set_option maxHeartbeats 4000000 in
theorem c8chunk5 : ((R_FROM_MOS_VALUES.drop 200).take 40).all rtOk = true := by
  with_unfolding_all decide

set_option maxRecDepth 20000 in
set_option maxHeartbeats 4000000 in
theorem c8chunk6 : ((R_FROM_MOS_VALUES.drop 240).take 40).all rtOk = true := by
  with_unfolding_all decide

set_option maxRecDepth 20000 in
set_option maxHeartbeats 4000000 in
theorem c8chunk7 : ((R_FROM_MOS_VALUES.drop 280).take 40).all rtOk = true := by
  with_unfolding_all decide

set_option maxRecDepth 20000 in
set_option maxHeartbeats 4000000 in
theorem c8chunk8 : ((R_FROM_MOS_VALUES.drop 320).take 40).all rtOk = true := by
  with_unfolding_all decide

set_option maxRecDepth 20000 in
set_option maxHeartbeats 4000000 in
theorem c8chunk9 : (R_FROM_MOS_VALUES.drop 360).all rtOk = true := by
  with_unfolding_all decide

/-- The round trip is within `1e-3` on every entry of the R value table. -/
theorem c8_all : R_FROM_MOS_VALUES.all rtOk = true := by
  have d8 : (R_FROM_MOS_VALUES.drop 320).all rtOk = true :=
    all_take_drop rtOk _ 40 c8chunk8 (by rw [List.drop_drop]; exact c8chunk9)
  have d7 : (R_FROM_MOS_VALUES.drop 280).all rtOk = true :=
    all_take_drop rtOk _ 40 c8chunk7 (by rw [List.drop_drop]; exact d8)
  have d6 : (R_FROM_MOS_VALUES.drop 240).all rtOk = true :=
    all_take_drop rtOk _ 40 c8chunk6 (by rw [List.drop_drop]; exact d7)
  have d5 : (R_FROM_MOS_VALUES.drop 200).all rtOk = true :=
    all_take_drop rtOk _ 40 c8chunk5 (by rw [List.drop_drop]; exact d6)
  have d4 : (R_FROM_MOS_VALUES.drop 160).all rtOk = true :=
    all_take_drop rtOk _ 40 c8chunk4 (by rw [List.drop_drop]; exact d5)
  have d3 : (R_FROM_MOS_VALUES.drop 120).all rtOk = true :=
    all_take_drop rtOk _ 40 c8chunk3 (by rw [List.drop_drop]; exact d4)
  have d2 : (R_FROM_MOS_VALUES.drop 80).all rtOk = true :=
    all_take_drop rtOk _ 40 c8chunk2 (by rw [List.drop_drop]; exact d3)
  have d1 : (R_FROM_MOS_VALUES.drop 40).all rtOk = true :=
    all_take_drop rtOk _ 40 c8chunk1 (by rw [List.drop_drop]; exact d2)
  have d0 : (R_FROM_MOS_VALUES.drop 0).all rtOk = true :=
    all_take_drop rtOk _ 40 c8chunk0 (by rw [List.drop_drop]; exact d1)
  simpa using d0

/-- **C8, amended.** For every R value `v` in the `R_FROM_MOS_VALUES`
table (389 entries: `0` and the quarter grid from `3.25` to `100`; the
grid points below `3.25` whose MOS falls under the clamp are absent from
the table), the round trip through the MOS↔R transfer functions
satisfies `|r_from_mos (mos_from_r v) - v| < 1e-3`.  For general
`Q ∈ [0, 100]` the claim fails at the clamp region, see
`c8_counterexample`. -/
theorem c8_theorem : ∀ v ∈ R_FROM_MOS_VALUES,
    |r_from_mos (mos_from_r v) - v| < 1/1000 := by
  intro v hv
  exact of_decide_eq_true (List.all_eq_true.mp c8_all v hv)

/-- **C8, witness.** The amended theorem applied at the first table
entry `v = 0`. -/
theorem c8_witness : |r_from_mos (mos_from_r (mkRat 0 1)) - mkRat 0 1| < 1/1000 :=
  c8_theorem (mkRat 0 1) (by unfold R_FROM_MOS_VALUES; exact List.mem_cons_self _ _)

/-!
## Video model Pv, mode 0 (`p1203Pv.py`)

A mode-0 synthetic video frame carries `duration`, `dts`, `bitrate`,
`codec`, `fps` and `resolution` (the dict built in `P1203Pv.calculate`).
The transcendental score formula `video_model_function_mode0` applied to
`resolution_to_number` of the resolutions is abstracted as the parameter
`sf` (resolution → display_res → bitrate → fps → score); everything the
callback does around it is kept.
-/

/-- A synthetic mode-0 Pv frame. -/
structure VFrame where
  duration : ℚ
  dts : ℚ
  bitrate : ℚ
  codec : String
  fps : ℚ
  resolution : String
  representation : Option String
deriving Repr, DecidableEq

/-- A video segment (`I13.segments[]` entry): the fields read by Pv in
mode 0. -/
structure VSegment where
  duration : ℚ
  bitrate : ℚ
  codec : String
  fps : ℚ
  resolution : String
  representation : Option String
deriving Repr, DecidableEq

/-- `get_chunk_hash(frame, "video")` from utils.py: an existing
`representation` wins, otherwise `str(bitrate) + str(codec) + str(fps)`
(the synthetic mode-0 frames never carry a `displaySize` key). -/
def VFrame.chunkHash (f : VFrame) : String :=
  match f.representation with
  | some r => r
  | none => toString f.bitrate ++ f.codec ++ toString f.fps

/-- `utils.get_chunk(frames, idx)` (video, `onlyfirst=False`): extend
from the target index to the left and right while the chunk hash stays
equal to the target's. -/
def getChunk (frames : List VFrame) (idx : ℕ) (tgt : VFrame) : List VFrame :=
  ((frames.take idx).reverse.takeWhile
      (fun f => f.chunkHash == tgt.chunkHash)).reverse
    ++ tgt :: (frames.drop (idx + 1)).takeWhile
      (fun f => f.chunkHash == tgt.chunkHash)

/-- `[i for i, f in enumerate(frames) if f["dts"] < t][-1]`: the last
index whose frame has `dts < t`, `none` on an empty selection
(`IndexError`). -/
def lastIdxLt (t : ℚ) (frames : List VFrame) : Option ℕ :=
  ((List.range frames.length).filter
    (fun i => match frames[i]? with
      | some f => decide (f.dts < t)
      | none => false)).getLast?

/-- `np.mean` of a list of rationals. -/
def npMean (l : List ℚ) : ℚ := l.sum / l.length

/-- `correction_func(x, a, b, c, d) = a·x³ + b·x² + c·x + d`. -/
def corrFn (a b c d x : ℚ) : ℚ := a * x * x * x + b * x * x + c * x + d

/-- `P1203Pv.COEFFS_H265` applied by
`max(1, min(correction_func(score, *coeffs), 5))`. -/
def corrH265 (x : ℚ) : ℚ :=
  max 1 (min (corrFn (mkRat (-5196039) 100000000) (mkRat 39430046 100000000)
    (mkRat 17486221 100000000) (mkRat 50008018 100000000) x) 5)

/-- `P1203Pv.COEFFS_VP9` applied by
`max(1, min(correction_func(score, *coeffs), 5))`. -/
def corrVp9 (x : ℚ) : ℚ :=
  max 1 (min (corrFn (mkRat (-4129014) 100000000) (mkRat 30953836 100000000)
    (mkRat 32314399 100000000) (mkRat 5284358 10000000) x) 5)

/-- The mode-0 score of a chunk `f0 :: rest`:
`video_model_function_mode0` (abstracted as `sf`) applied to the first
frame's resolution, the display resolution, the mean chunk bitrate and
the first frame's framerate. -/
def pvScore (sf : String → String → ℚ → ℚ → ℚ) (disp : String)
    (f0 : VFrame) (rest : List VFrame) : ℚ :=
  sf f0.resolution disp (npMean ((f0 :: rest).map VFrame.bitrate)) f0.fps

/-- `P1203Pv.model_callback` in mode 0: select the chunk around the last
frame with `dts < t`, average its bitrates, compute the mode-0 score and
append it (`self.o22.append(score)` in the `mode == 0` branch); then the
codec check: more than one distinct codec raises; a non-`h264` codec
replaces the score by the clamped cubic correction (an unknown codec
leaves `coeffs` unbound and raises); finally the trailing
`self.o22.append(score)` appends the (possibly corrected) score a second
time.  The returned list is everything this invocation appends to
`self.o22`. -/
def pvCallback (sf : String → String → ℚ → ℚ → ℚ) (disp : String)
    (t : ℕ) (frames : List VFrame) : Option (List ℚ) :=
  match lastIdxLt (t : ℚ) frames with
  | none => none
  | some idx =>
      match frames[idx]? with
      | none => none
      | some tgt =>
          match getChunk frames idx tgt with
          | [] => none
          | f0 :: rest =>
              if 1 < ((f0 :: rest).map VFrame.codec).eraseDups.length then
                none
              else match ((f0 :: rest).map VFrame.codec).eraseDups.head? with
                | none => none
                | some c =>
                    if c = "h264" then
                      some [pvScore sf disp f0 rest, pvScore sf disp f0 rest]
                    else if c = "hevc" ∨ c = "h265" then
                      some [pvScore sf disp f0 rest,
                            corrH265 (pvScore sf disp f0 rest)]
                    else if c = "vp9" then
                      some [pvScore sf disp f0 rest,
                            corrVp9 (pvScore sf disp f0 rest)]
                    else none

/-- The measurement-window parameters used by Pv: a frame has an `"fps"`
key, so `add_frame` computes the video chunk hash. -/
def pvParams (sf : String → String → ℚ → ℚ → ℚ) (disp : String) :
    MWParams VFrame :=
  { dur := VFrame.duration
    dts := VFrame.dts
    setRep := fun f => some { f with representation := some f.chunkHash }
    cb := pvCallback sf disp }

/-- The synthetic mode-0 frame for one sample of a segment. -/
def pvFrame (seg : VSegment) (dts : ℚ) : VFrame :=
  ⟨1 / seg.fps, dts, seg.bitrate, seg.codec, seg.fps, seg.resolution,
    seg.representation⟩

/-- The mode-0 frame-generation loop of `P1203Pv.calculate` for one
segment (`int(duration * fps)` frames of duration `1/fps`), threading the
running `dts`. -/
def pvSegmentLoop (sf : String → String → ℚ → ℚ → ℚ) (disp : String)
    (st : ℚ × MW VFrame) (seg : VSegment) : ℚ × MW VFrame :=
  let numFrames := (pyInt (seg.duration * seg.fps)).toNat
  (List.range numFrames).foldl
    (fun (p : ℚ × MW VFrame) _ =>
      (p.1 + 1 / seg.fps, addFrame (pvParams sf disp) p.2 (pvFrame seg p.1)))
    st

/-- `P1203Pv.calculate` in mode 0: feed all synthetic frames through the
window, then flush. -/
def pvWindowRun (sf : String → String → ℚ → ℚ → ℚ) (disp : String)
    (segs : List VSegment) : MW VFrame :=
  let s := (segs.foldl (pvSegmentLoop sf disp) (0, MW.init)).2
  streamFinished (pvParams sf disp) s

/-- The `O22` vector computed by Pv in mode 0; `none` when the Python run
would raise. -/
def pvWindowO22 (sf : String → String → ℚ → ℚ → ℚ) (disp : String)
    (segs : List VSegment) : Option (List ℚ) :=
  let s := pvWindowRun sf disp segs
  if s.crashed then none else some s.o

/-!
### C1: score-erasure simulation

The number of entries each callback invocation appends to `O22` does not
depend on the abstract score function `sf`, so the final `O22` *length*
under any `sf` equals the one under the constant-zero score function,
which is a closed computation.  `cbLenEq` relates two parameter records
whose callbacks agree up to score values; `stEq` relates two window
states that agree except for the scores stored in `o`.
-/

/-- Two parameter records that differ only in the score values their
callbacks emit. -/
def cbLenEq {α : Type} (P Q : MWParams α) : Prop :=
  P.dur = Q.dur ∧ P.dts = Q.dts ∧ P.setRep = Q.setRep ∧
  ∀ t fr, (P.cb t fr).map List.length = (Q.cb t fr).map List.length

/-- Two window states that agree except for the score values in `o`. -/
def stEq {α : Type} (s s' : MW α) : Prop :=
  s.frames = s'.frames ∧ s.removed = s'.removed ∧ s.last = s'.last ∧
  s.accFrame = s'.accFrame ∧ s.accPvs = s'.accPvs ∧
  s.o.length = s'.o.length ∧ s.cbCount = s'.cbCount ∧ s.crashed = s'.crashed

theorem stEq_shouldCalc {α : Type} {P Q : MWParams α} (hPQ : cbLenEq P Q)
    {s s' : MW α} (h : stEq s s') :
    stEq (shouldCalculateScore P s) (shouldCalculateScore Q s') := by
  obtain ⟨hf, hr, hl, ha, hp, ho, hc, hcr⟩ := h
  obtain ⟨_, _, _, hcb⟩ := hPQ
  unfold shouldCalculateScore
  rw [← hf, ← hl, ← hp, ← hc]
  by_cases h1 : s.last = 0 ∧ pyRound5 s.accPvs < 10 + 1
  · rw [if_pos h1, if_pos h1]
    exact ⟨hf, hr, hl, ha, hp, ho, hc, hcr⟩
  · rw [if_neg h1, if_neg h1]
    by_cases h2 : s.accPvs - 10 ≥ (s.last : ℚ) + 1
    · rw [if_pos h2, if_pos h2]
      have hlen := hcb (s.last + 1) s.frames
      cases hc1 : P.cb (s.last + 1) s.frames with
      | none =>
          cases hc2 : Q.cb (s.last + 1) s.frames with
          | none => dsimp only; exact ⟨rfl, hr, rfl, ha, rfl, ho, rfl, rfl⟩
          | some sc' => rw [hc1, hc2] at hlen; cases hlen
      | some sc =>
          cases hc2 : Q.cb (s.last + 1) s.frames with
          | none => rw [hc1, hc2] at hlen; cases hlen
          | some sc' =>
              rw [hc1, hc2] at hlen
              have hsl : sc.length = sc'.length := by
                simpa using hlen
              dsimp only
              refine ⟨rfl, hr, rfl, ha, rfl, ?_, rfl, hcr⟩
              show (s.o ++ sc).length = (s'.o ++ sc').length
              simp [List.length_append, ho, hsl]
    · rw [if_neg h2, if_neg h2]
      exact ⟨hf, hr, hl, ha, hp, ho, hc, hcr⟩

theorem stEq_evict {α : Type} {P Q : MWParams α} (hPQ : cbLenEq P Q)
    {s s' : MW α} (h : stEq s s') (f : α) :
    stEq (evictStep P s f) (evictStep Q s' f) := by
  obtain ⟨hf, hr, hl, ha, hp, ho, hc, hcr⟩ := h
  obtain ⟨hdur, _, _, _⟩ := hPQ
  unfold evictStep
  rw [← hf, ← ha, ← hdur]
  by_cases h1 : s.accFrame + P.dur f > 20
  · rw [if_pos h1, if_pos h1]
    cases s.frames with
    | nil => dsimp only; exact ⟨rfl, hr, hl, rfl, hp, ho, hc, rfl⟩
    | cons g rest =>
        dsimp only
        exact ⟨rfl, by rw [hr], hl, rfl, hp, ho, hc, hcr⟩
  · rw [if_neg h1, if_neg h1]
    exact ⟨hf, hr, hl, ha, hp, ho, hc, hcr⟩

theorem stEq_append {α : Type} {P Q : MWParams α} (hPQ : cbLenEq P Q)
    {s s' : MW α} (h : stEq s s') (f' : α) :
    stEq (appendStep P s f') (appendStep Q s' f') := by
  obtain ⟨hf, hr, hl, ha, hp, ho, hc, hcr⟩ := h
  obtain ⟨hdur, _, _, _⟩ := hPQ
  exact ⟨by simp [appendStep, hf], hr, hl,
    by simp [appendStep, ha, hdur], by simp [appendStep, hp, hdur],
    ho, hc, hcr⟩

theorem stEq_addFrame {α : Type} {P Q : MWParams α} (hPQ : cbLenEq P Q)
    {s s' : MW α} (h : stEq s s') (f : α) :
    stEq (addFrame P s f) (addFrame Q s' f) := by
  have hev := stEq_evict hPQ h f
  obtain ⟨hf, hr, hl, ha, hp, ho, hc, hcr⟩ := h
  obtain ⟨hdur, hdts, hsr, hcb⟩ := hPQ
  unfold addFrame
  rw [← hcr, ← hdur, ← hsr, ← hev.2.2.2.2.2.2.2]
  by_cases h1 : s.crashed
  · rw [if_pos h1, if_pos h1]
    exact ⟨hf, hr, hl, ha, hp, ho, hc, hcr⟩
  · rw [if_neg h1, if_neg h1]
    by_cases h2 : P.dur f = 0
    · rw [if_pos h2, if_pos h2]
      exact ⟨hf, hr, hl, ha, hp, ho, hc, rfl⟩
    · rw [if_neg h2, if_neg h2]
      by_cases h3 : (evictStep P s f).crashed
      · rw [if_pos h3, if_pos h3]
        exact hev
      · rw [if_neg h3, if_neg h3]
        cases P.setRep f with
        | none =>
            obtain ⟨ef, er, el, ea, ep, eo, ec, ecr⟩ := hev
            exact ⟨ef, er, el, ea, ep, eo, ec, rfl⟩
        | some f' =>
            exact stEq_shouldCalc ⟨hdur, hdts, hsr, hcb⟩
              (stEq_append ⟨hdur, hdts, hsr, hcb⟩ hev f')

theorem flushPops_congr {α : Type} {P Q : MWParams α}
    (hdur : P.dur = Q.dur) (hdts : P.dts = Q.dts) (t : ℕ) :
    ∀ l : List α, flushPops P t l = flushPops Q t l := by
  intro l
  induction l with
  | nil => rfl
  | cons g rest ih =>
      unfold flushPops
      rw [hdts, ih, hdur]

theorem stEq_flushGo {α : Type} {P Q : MWParams α} (hPQ : cbLenEq P Q) :
    ∀ (fuel t : ℕ) {s s' : MW α}, stEq s s' →
    stEq (flushGo P fuel t s) (flushGo Q fuel t s') := by
  obtain ⟨hdur, hdts, hsr, hcb⟩ := hPQ
  intro fuel
  induction fuel with
  | zero => intro t s s' h; exact h
  | succ fuel ih =>
      intro t s s' h
      obtain ⟨hf, hr, hl, ha, hp, ho, hc, hcr⟩ := h
      unfold flushGo
      rw [← hf, ← flushPops_congr hdur hdts t s.frames]
      cases hfp : flushPops P t s.frames with
      | none => dsimp only; exact ⟨rfl, hr, hl, ha, hp, ho, hc, rfl⟩
      | some x =>
          obtain ⟨fr, popped, d⟩ := x
          have hlen := hcb t fr
          dsimp only
          cases hc1 : P.cb t fr with
          | none =>
              cases hc2 : Q.cb t fr with
              | none =>
                  dsimp only
                  exact ⟨rfl, by rw [hr], hl, by rw [ha], hp, ho, hc, rfl⟩
              | some sc' => rw [hc1, hc2] at hlen; cases hlen
          | some sc =>
              cases hc2 : Q.cb t fr with
              | none => rw [hc1, hc2] at hlen; cases hlen
              | some sc' =>
                  rw [hc1, hc2] at hlen
                  have hsl : sc.length = sc'.length := by simpa using hlen
                  dsimp only
                  exact ih (t + 1)
                    ⟨rfl, by rw [hr], by rw [hl], by rw [ha], by rw [hp],
                      by simp [List.length_append, ho, hsl],
                      by rw [hc], by rw [hcr]⟩

theorem stEq_streamFinished {α : Type} {P Q : MWParams α}
    (hPQ : cbLenEq P Q) {s s' : MW α} (h : stEq s s') :
    stEq (streamFinished P s) (streamFinished Q s') := by
  obtain ⟨hf, hr, hl, ha, hp, ho, hc, hcr⟩ := h
  unfold streamFinished
  rw [← hcr, ← hp, ← hl]
  by_cases h1 : s.crashed
  · rw [if_pos h1, if_pos h1]
    exact ⟨hf, hr, hl, ha, hp, ho, hc, hcr⟩
  · rw [if_neg h1, if_neg h1]
    exact stEq_flushGo hPQ _ _ ⟨hf, hr, hl, ha, hp, ho, hc, hcr⟩

theorem stEq_foldl {α : Type} {P Q : MWParams α} (hPQ : cbLenEq P Q) :
    ∀ (fs : List α) {s s' : MW α}, stEq s s' →
    stEq (fs.foldl (addFrame P) s) (fs.foldl (addFrame Q) s') := by
  intro fs
  induction fs with
  | nil => intro s s' h; exact h
  | cons f fs ih =>
      intro s s' h
      exact ih (stEq_addFrame hPQ h f)

/-- `pvCallback` emits the same number of scores (and crashes in the same
cases) for any two score functions. -/
theorem pvCallback_len (sf sf' : String → String → ℚ → ℚ → ℚ)
    (disp : String) (t : ℕ) (fr : List VFrame) :
    (pvCallback sf disp t fr).map List.length
      = (pvCallback sf' disp t fr).map List.length := by
  unfold pvCallback
  cases lastIdxLt (t : ℚ) fr with
  | none => rfl
  | some idx =>
      dsimp only
      cases fr[idx]? with
      | none => rfl
      | some tgt =>
          dsimp only
          cases getChunk fr idx tgt with
          | nil => rfl
          | cons f0 rest =>
              dsimp only
              by_cases h1 :
                  1 < ((f0 :: rest).map VFrame.codec).eraseDups.length
              · rw [if_pos h1, if_pos h1]
              · rw [if_neg h1, if_neg h1]
                cases ((f0 :: rest).map VFrame.codec).eraseDups.head? with
                | none => rfl
                | some c =>
                    dsimp only
                    by_cases h2 : c = "h264"
                    · rw [if_pos h2, if_pos h2]; rfl
                    · rw [if_neg h2, if_neg h2]
                      by_cases h3 : c = "hevc" ∨ c = "h265"
                      · rw [if_pos h3, if_pos h3]; rfl
                      · rw [if_neg h3, if_neg h3]
                        by_cases h4 : c = "vp9"
                        · rw [if_pos h4, if_pos h4]; rfl
                        · rw [if_neg h4, if_neg h4]

/-- The two Pv parameter records differ only in score values. -/
theorem pvParams_cbLenEq (sf sf' : String → String → ℚ → ℚ → ℚ)
    (disp : String) : cbLenEq (pvParams sf disp) (pvParams sf' disp) :=
  ⟨rfl, rfl, rfl, pvCallback_len sf sf' disp⟩

theorem stEq_pvSegmentLoop (sf sf' : String → String → ℚ → ℚ → ℚ)
    (disp : String) (seg : VSegment) :
    ∀ (l : List ℕ) (st st' : ℚ × MW VFrame), st.1 = st'.1 → stEq st.2 st'.2 →
    (l.foldl (fun (p : ℚ × MW VFrame) _ =>
        (p.1 + 1 / seg.fps, addFrame (pvParams sf disp) p.2 (pvFrame seg p.1)))
        st).1
      = (l.foldl (fun (p : ℚ × MW VFrame) _ =>
          (p.1 + 1 / seg.fps,
            addFrame (pvParams sf' disp) p.2 (pvFrame seg p.1))) st').1 ∧
    stEq
      (l.foldl (fun (p : ℚ × MW VFrame) _ =>
        (p.1 + 1 / seg.fps, addFrame (pvParams sf disp) p.2 (pvFrame seg p.1)))
        st).2
      (l.foldl (fun (p : ℚ × MW VFrame) _ =>
        (p.1 + 1 / seg.fps,
          addFrame (pvParams sf' disp) p.2 (pvFrame seg p.1))) st').2 := by
  intro l
  induction l with
  | nil => intro st st' h1 h2; exact ⟨h1, h2⟩
  | cons x xs ih =>
      intro st st' h1 h2
      simp only [List.foldl_cons]
      exact ih _ _ (by rw [h1])
        (by rw [← h1]
            exact stEq_addFrame (pvParams_cbLenEq sf sf' disp) h2 _)

theorem stEq_pvWindowRun (sf sf' : String → String → ℚ → ℚ → ℚ)
    (disp : String) :
    ∀ (segs : List VSegment) (st st' : ℚ × MW VFrame),
    st.1 = st'.1 → stEq st.2 st'.2 →
    (segs.foldl (pvSegmentLoop sf disp) st).1
      = (segs.foldl (pvSegmentLoop sf' disp) st').1 ∧
    stEq (segs.foldl (pvSegmentLoop sf disp) st).2
      (segs.foldl (pvSegmentLoop sf' disp) st').2 := by
  intro segs
  induction segs with
  | nil => intro st st' h1 h2; exact ⟨h1, h2⟩
  | cons seg rest ih =>
      intro st st' h1 h2
      simp only [List.foldl_cons]
      have hstep := stEq_pvSegmentLoop sf sf' disp seg
        (List.range (pyInt (seg.duration * seg.fps)).toNat) st st' h1 h2
      exact ih _ _ hstep.1 hstep.2

/-- The length (and definedness) of the mode-0 `O22` vector does not
depend on the score function. -/
theorem pvWindowO22_len (sf sf' : String → String → ℚ → ℚ → ℚ)
    (disp : String) (segs : List VSegment) :
    (pvWindowO22 sf disp segs).map List.length
      = (pvWindowO22 sf' disp segs).map List.length := by
  have hrun := stEq_pvWindowRun sf sf' disp segs (0, MW.init) (0, MW.init)
    rfl ⟨rfl, rfl, rfl, rfl, rfl, rfl, rfl, rfl⟩
  have hfin := stEq_streamFinished (pvParams_cbLenEq sf sf' disp) hrun.2
  obtain ⟨_, _, _, _, _, ho, _, hcr⟩ := hfin
  unfold pvWindowO22 pvWindowRun
  dsimp only
  rw [← hcr]
  by_cases h1 : (streamFinished (pvParams sf disp)
      ((segs.foldl (pvSegmentLoop sf disp) (0, MW.init)).2)).crashed
  · rw [if_pos h1, if_pos h1]
  · rw [if_neg h1, if_neg h1]
    simpa using ho

/-- A concrete stand-in score function (all scores 0). -/
def sfZero : String → String → ℚ → ℚ → ℚ := fun _ _ _ _ => 0

set_option maxRecDepth 20000 in
theorem pvZero_len :
    (pvWindowO22 sfZero "1920x1080"
        [⟨2, 500, "h264", 1, "1920x1080", none⟩]).map List.length
      = some 4 := by
  with_unfolding_all decide

/-- **C1.** The spec requires `len(O22) = floor(duration)`.  The code
violates it: in mode 0 `model_callback` appends the score once inside the
`mode == 0` branch (p1203Pv.py:311) and once more at the end of the
callback (p1203Pv.py:357), so every callback contributes two entries.
For a single 2-second h264 segment at 1 fps the window invokes the
callback twice (t = 1, 2 on `stream_finished`), and `O22` ends with 4
entries instead of `floor(2) = 2` — for every score function `sf` (the
abstracted `video_model_function_mode0`). -/
theorem c1_theorem : ∀ sf : String → String → ℚ → ℚ → ℚ,
    (pvWindowO22 sf "1920x1080"
        [⟨2, 500, "h264", 1, "1920x1080", none⟩]).map List.length
      = some 4 ∧ ((4 : ℤ) ≠ Int.floor ((2 : ℚ))) := by
  intro sf
  refine ⟨?_, by norm_num⟩
  rw [pvWindowO22_len sf sfZero]
  exact pvZero_len

/-!
## Frames as Python dicts (`add_frame`'s mutation, C10)

To speak about *all* keys of the caller's frame dict, frames are modelled
as association lists of string keys and Python values (strings or
numbers).  `dictSet` is Python dict assignment: it overwrites the value
in place if the key exists and appends the pair otherwise.
-/

/-- A Python value stored in a frame dict. -/
inductive PyVal where
  | str : String → PyVal
  | num : ℚ → PyVal
deriving Repr, DecidableEq

/-- A frame as a Python dict: an association list keyed by strings. -/
abbrev DFrame := List (String × PyVal)

/-- `frame[k]` (first matching key; `none` is a `KeyError`). -/
def dictGet (k : String) : DFrame → Option PyVal
  | [] => none
  | (k', v) :: rest => if k' = k then some v else dictGet k rest

/-- `frame[k] = v`. -/
def dictSet (k : String) (v : PyVal) : DFrame → DFrame
  | [] => [(k, v)]
  | (k', v') :: rest =>
      if k' = k then (k', v) :: rest else (k', v') :: dictSet k v rest

/-- `k in frame`. -/
def hasKey (k : String) (d : DFrame) : Bool := (dictGet k d).isSome

/-- `str(...)` of a dict value (Python's float formatting is abstracted
by the exact rational's string). -/
def pyStr : PyVal → String
  | .str s => s
  | .num q => toString q

/-- `utils.get_chunk_hash(frame, type)` on dict frames: an existing
`representation` value is returned as is; otherwise the hash
concatenates `str(bitrate) + str(codec)` (audio) plus `str(fps)` and, if
present, `str(displaySize)` (video).  A missing key is a `KeyError`
(`none`), as is a `type` other than `"video"`/`"audio"`. -/
def getChunkHashD (ty : String) (f : DFrame) : Option PyVal :=
  match dictGet "representation" f with
  | some v => some v
  | none =>
      if ty = "video" then
        match dictGet "bitrate" f, dictGet "codec" f, dictGet "fps" f with
        | some b, some c, some fp =>
            match dictGet "displaySize" f with
            | some ds =>
                some (.str (pyStr b ++ pyStr c ++ pyStr fp ++ pyStr ds))
            | none => some (.str (pyStr b ++ pyStr c ++ pyStr fp))
        | _, _, _ => none
      else if ty = "audio" then
        match dictGet "bitrate" f, dictGet "codec" f with
        | some b, some c => some (.str (pyStr b ++ pyStr c))
        | _, _ => none
      else none

/-- The mutation in `add_frame` (measurementwindow.py:105-110):
`frame["representation"] = get_chunk_hash(frame, "audio") if "fps" not in
frame else get_chunk_hash(frame, "video")`. -/
def setRepD (f : DFrame) : Option DFrame :=
  match (if hasKey "fps" f = false then getChunkHashD "audio" f
         else getChunkHashD "video" f) with
  | none => none
  | some h => some (dictSet "representation" h f)

/-- `frame["duration"]` as a rational (`0` both for a missing key and for
a non-numeric value; either way `add_frame` raises before mutating). -/
def durD (f : DFrame) : ℚ :=
  match dictGet "duration" f with
  | some (.num q) => q
  | _ => 0

/-- `frame["dts"]` as a rational. -/
def dtsD (f : DFrame) : ℚ :=
  match dictGet "dts" f with
  | some (.num q) => q
  | _ => 0

/-- The measurement window over dict frames, generic in the model
callback `cb`. -/
def dframeParams (cb : ℕ → List DFrame → Option (List ℚ)) :
    MWParams DFrame :=
  { dur := durD
    dts := dtsD
    setRep := setRepD
    cb := cb }

theorem dictGet_dictSet_self (k : String) (v : PyVal) :
    ∀ d : DFrame, dictGet k (dictSet k v d) = some v := by
  intro d
  induction d with
  | nil => simp [dictGet, dictSet]
  | cons p rest ih =>
      obtain ⟨k', v'⟩ := p
      by_cases h : k' = k
      · simp [dictGet, dictSet, h]
      · simp [dictGet, dictSet, h, ih]

theorem dictGet_dictSet_ne (k k' : String) (v : PyVal) (hne : k' ≠ k) :
    ∀ d : DFrame, dictGet k' (dictSet k v d) = dictGet k' d := by
  have hne2 : ¬ (k = k') := fun hq => hne hq.symm
  intro d
  induction d with
  | nil => simp [dictGet, dictSet, hne2]
  | cons p rest ih =>
      obtain ⟨k'', v''⟩ := p
      by_cases h : k'' = k
      · subst h
        simp [dictGet, dictSet, hne2]
      · by_cases h2 : k'' = k'
        · simp [dictGet, dictSet, h, h2, hne]
        · simp [dictGet, dictSet, h, h2, ih]

/-- **C10.** Every accepted `add_frame(f)` call rewrites exactly the
`"representation"` key of the caller's frame dict: the stored frame is
`dictSet "representation" h f` where `h` is the audio chunk hash if `f`
has no `"fps"` key and the video chunk hash otherwise; the new
`"representation"` value is `h`, every other key keeps its value, and
the window appends precisely this mutated frame (whatever the model
callback `cb` is, and regardless of whether the frame is evicted by a
later call).  A call that raises first (falsy duration, or the eviction
pop on an empty list) is not an accepted frame. -/
theorem c10_theorem (f : DFrame) (h : PyVal)
    (hh : (if hasKey "fps" f = false then getChunkHashD "audio" f
           else getChunkHashD "video" f) = some h) :
    setRepD f = some (dictSet "representation" h f) ∧
    dictGet "representation" (dictSet "representation" h f) = some h ∧
    (∀ k, k ≠ "representation" →
      dictGet k (dictSet "representation" h f) = dictGet k f) ∧
    ∀ (cb : ℕ → List DFrame → Option (List ℚ)) (s : MW DFrame),
      s.crashed = false → durD f ≠ 0 →
      (evictStep (dframeParams cb) s f).crashed = false →
      (addFrame (dframeParams cb) s f).frames
        = (evictStep (dframeParams cb) s f).frames
          ++ [dictSet "representation" h f] := by
  have hsr : setRepD f = some (dictSet "representation" h f) := by
    unfold setRepD
    rw [hh]
  refine ⟨hsr, dictGet_dictSet_self _ _ f,
    fun k hk => dictGet_dictSet_ne _ k h hk f, ?_⟩
  intro cb s hcr hdur hev
  unfold addFrame
  rw [if_neg (by rw [hcr]; exact Bool.false_ne_true)]
  rw [if_neg (by exact hdur)]
  rw [if_neg (by rw [hev]; exact Bool.false_ne_true)]
  have hpr : (dframeParams cb).setRep = setRepD := rfl
  rw [hpr, hsr]
  dsimp only
  rw [(shouldCalc_preserve (dframeParams cb) _).1]
  rfl

/-- **C10, witness.** The theorem applied to a concrete audio-style frame
(no `"fps"` key): the computed hash is `str(64) + "aaclc"`. -/
theorem c10_witness :
    (if hasKey "fps" [("duration", PyVal.num 1), ("dts", PyVal.num 0),
          ("bitrate", PyVal.num 64), ("codec", PyVal.str "aaclc")] = false
      then getChunkHashD "audio" [("duration", PyVal.num 1),
          ("dts", PyVal.num 0), ("bitrate", PyVal.num 64),
          ("codec", PyVal.str "aaclc")]
      else getChunkHashD "video" [("duration", PyVal.num 1),
          ("dts", PyVal.num 0), ("bitrate", PyVal.num 64),
          ("codec", PyVal.str "aaclc")]) = some (PyVal.str "64aaclc") ∧
    setRepD [("duration", PyVal.num 1), ("dts", PyVal.num 0),
        ("bitrate", PyVal.num 64), ("codec", PyVal.str "aaclc")]
      = some (dictSet "representation" (PyVal.str "64aaclc")
          [("duration", PyVal.num 1), ("dts", PyVal.num 0),
           ("bitrate", PyVal.num 64), ("codec", PyVal.str "aaclc")]) := by
  have hh : (if hasKey "fps" [("duration", PyVal.num 1), ("dts", PyVal.num 0),
          ("bitrate", PyVal.num 64), ("codec", PyVal.str "aaclc")] = false
      then getChunkHashD "audio" [("duration", PyVal.num 1),
          ("dts", PyVal.num 0), ("bitrate", PyVal.num 64),
          ("codec", PyVal.str "aaclc")]
      else getChunkHashD "video" [("duration", PyVal.num 1),
          ("dts", PyVal.num 0), ("bitrate", PyVal.num 64),
          ("codec", PyVal.str "aaclc")]) = some (PyVal.str "64aaclc") := by
    with_unfolding_all decide
  exact ⟨hh, (c10_theorem _ _ hh).1⟩

/-!
## C9: fast mode vs. measurement-window mode for a single audio segment

For one segment with constant supported codec and bitrate and duration
`d > 11`, the window run feeds `N = ⌊100·d⌋` identical frames of `1/100`
s.  The state after `n` frames is described exactly (`mws`): the window
holds the last `min n 2000` frames, scores start at `n = 1100` and one
score is emitted at every further full second (`100 ∣ n`); the flush then
tops the output up to `⌊d⌋` copies of the one chunk score.
-/

/-- The score `audio_model_function` produces for a supported codec. -/
def scOf (expQ : ℚ → ℚ) (codec : String) (bitrate : ℚ) : ℚ :=
  mos_from_r (100 - (COEFFS_A1 codec * expQ (COEFFS_A2 codec * bitrate)
    + COEFFS_A3 codec))

theorem audioModelFn_valid (expQ : ℚ → ℚ) {c : String} (b : ℚ)
    (hc : c ∈ VALID_CODECS) : audioModelFn expQ c b = some (scOf expQ c b) := by
  unfold audioModelFn scOf
  rw [if_pos hc]

/-- The audio chunk hash `add_frame` writes into each synthetic frame. -/
def hvOf (b : ℚ) (c : String) (rep : Option String) : String :=
  match rep with
  | some r => r
  | none => toString b ++ c

/-- The stored frame number `j` of the synthetic 100 Hz stream. -/
def sfr (b : ℚ) (c : String) (hv : String) (j : ℕ) : AFrame :=
  ⟨1/100, (j : ℚ)/100, b, c, some hv⟩

/-- `last_score_output_at` after `n` frames of `1/100` s. -/
def lastOf (n : ℕ) : ℕ := if n < 1100 then 0 else n / 100 - 10

/-- The window's frame list after `n` frames. -/
def wnd (b : ℚ) (c : String) (hv : String) (n : ℕ) : List AFrame :=
  (List.range' (n - min n 2000) (min n 2000)).map (sfr b c hv)

/-- The evicted frames after `n` frames. -/
def rmd (b : ℚ) (c : String) (hv : String) (n : ℕ) : List AFrame :=
  (List.range' 0 (n - min n 2000)).map (sfr b c hv)

/-- The full window state after `n` frames of the uniform stream. -/
def mws (b : ℚ) (c : String) (hv : String) (sc : ℚ) (n : ℕ) : MW AFrame :=
  ⟨wnd b c hv n, rmd b c hv n, lastOf n, ((min n 2000 : ℕ) : ℚ)/100,
    (n : ℚ)/100, List.replicate (lastOf n) sc, lastOf n, false⟩

theorem pyRound5_div100 (j : ℕ) : pyRound5 ((j : ℚ)/100) = (j : ℚ)/100 :=
  pyRound5_of_int_mul (1000 * j) (by push_cast; ring)

theorem div100_lt_iff (j : ℕ) (x : ℚ) : (j : ℚ)/100 < x ↔ (j : ℚ) < 100 * x := by
  rw [div_lt_iff (by norm_num : (0:ℚ) < 100)]
  constructor <;> intro h <;> linarith

theorem div100_lt_nat_iff (j t : ℕ) : (j : ℚ)/100 < (t : ℚ) ↔ j < 100 * t := by
  rw [div100_lt_iff]
  constructor <;> intro h
  · exact_mod_cast (by push_cast at h ⊢; linarith : (j : ℚ) < ((100 * t : ℕ) : ℚ))
  · push_cast
    exact_mod_cast (by exact_mod_cast h : (j : ℚ) < ((100 * t : ℕ) : ℚ))

theorem cond_div100_iff (j t : ℕ) :
    ((j : ℚ)/100 < (t : ℚ) - 10) ↔ ((j : ℤ) < 100 * (t : ℤ) - 1000) := by
  rw [div_lt_iff (by norm_num : (0:ℚ) < 100)]
  constructor
  · intro h
    have : (j : ℚ) < 100 * (t : ℚ) - 1000 := by linarith
    exact_mod_cast this
  · intro h
    have : (j : ℚ) < 100 * (t : ℚ) - 1000 := by exact_mod_cast h
    linarith

/-- The Pa callback on a uniform frame window: one score, the chunk
score of the shared codec and bitrate. -/
theorem paCallback_uniform (expQ : ℚ → ℚ) (b : ℚ) (c : String) (hv : String)
    (sc : ℚ) (hcb : audioModelFn expQ c b = some sc) (t : ℕ) (l : List ℕ)
    (j0 : ℕ) (hj0 : j0 ∈ l) (hlt : (j0 : ℚ)/100 < (t : ℚ)) :
    paCallback expQ t (l.map (sfr b c hv)) = some [sc] := by
  unfold paCallback
  have hfm : (l.map (sfr b c hv)).filter (fun f => decide (f.dts < (t : ℚ)))
      = (l.filter (fun (j : ℕ) => decide ((j : ℚ)/100 < (t : ℚ)))).map (sfr b c hv) :=
    List.filter_map (sfr b c hv) l
  rw [hfm, List.getLast?_map]
  have hne : l.filter (fun (j : ℕ) => decide ((j : ℚ)/100 < (t : ℚ))) ≠ [] := by
    intro hempty
    have : j0 ∈ l.filter (fun (j : ℕ) => decide ((j : ℚ)/100 < (t : ℚ))) :=
      List.mem_filter.mpr ⟨hj0, by simpa using hlt⟩
    rw [hempty] at this
    cases this
  cases hlast : (l.filter (fun (j : ℕ) => decide ((j : ℚ)/100 < (t : ℚ)))).getLast? with
  | none => exact absurd (List.getLast?_eq_none.mp hlast) hne
  | some jl =>
      dsimp only [Option.map_some']
      show (audioModelFn expQ (sfr b c hv jl).codec (sfr b c hv jl).bitrate).map
        (fun s => [s]) = some [sc]
      rw [show (sfr b c hv jl).codec = c from rfl,
        show (sfr b c hv jl).bitrate = b from rfl, hcb]
      rfl

/-- `flushPops` on a uniform window `[a, a+len)` pops exactly the frames
with `dts < t - 10`, i.e. the indices below `(100·t − 1000).toNat`. -/
theorem flushPops_uniform (expQ : ℚ → ℚ) (b : ℚ) (c : String) (hv : String)
    (t : ℕ) :
    ∀ (len a : ℕ), (100 * (t : ℤ) - 1000).toNat < a + len → 1 ≤ len →
    ∃ pop d, flushPops (paParams expQ) t ((List.range' a len).map (sfr b c hv))
      = some (((List.range' (max a (100 * (t : ℤ) - 1000).toNat)
          (a + len - max a (100 * (t : ℤ) - 1000).toNat)).map (sfr b c hv)),
        pop, d) := by
  intro len
  induction len with
  | zero => intro a _ h1; cases h1
  | succ l ih =>
      intro a hcut _
      rw [List.range'_succ, List.map_cons]
      by_cases hcond : ((a : ℚ)/100 < (t : ℚ) - 10)
      · have ha : a < (100 * (t : ℤ) - 1000).toNat := by
          have := (cond_div100_iff a t).mp hcond
          omega
        have hl1 : 1 ≤ l := by omega
        obtain ⟨pop', d', hrec⟩ := ih (a + 1) (by omega) hl1
        refine ⟨sfr b c hv a :: pop', d' + (paParams expQ).dur (sfr b c hv a), ?_⟩
        show flushPops (paParams expQ) t (sfr b c hv a :: _) = _
        unfold flushPops
        rw [if_pos (by
          show pyRound5 ((paParams expQ).dts (sfr b c hv a)) < (t : ℚ) - 10
          show pyRound5 ((a : ℚ)/100) < (t : ℚ) - 10
          rw [pyRound5_div100]
          exact hcond)]
        rw [hrec]
        have hmax : max (a + 1) (100 * (t : ℤ) - 1000).toNat
            = max a (100 * (t : ℤ) - 1000).toNat := by omega
        rw [hmax]
        have hlen2 : a + 1 + l = a + (l + 1) := by omega
        rw [hlen2]
      · have ha : (100 * (t : ℤ) - 1000).toNat ≤ a := by
          have := (cond_div100_iff a t).not.mp hcond
          omega
        refine ⟨[], 0, ?_⟩
        unfold flushPops
        rw [if_neg (by
          show ¬ pyRound5 ((paParams expQ).dts (sfr b c hv a)) < (t : ℚ) - 10
          show ¬ pyRound5 ((a : ℚ)/100) < (t : ℚ) - 10
          rw [pyRound5_div100]
          exact hcond)]
        have hmax : max a (100 * (t : ℤ) - 1000).toNat = a := by omega
        rw [hmax]
        have hlen2 : a + (l + 1) - a = l + 1 := by omega
        rw [hlen2, List.range'_succ, List.map_cons]

theorem div100_lt11 (n : ℕ) : ((n : ℚ)/100 < 11) ↔ n < 1100 := by
  rw [div_lt_iff (by norm_num : (0:ℚ) < 100)]
  constructor
  · intro h
    exact_mod_cast (by push_cast; linarith : (n : ℚ) < ((1100 : ℕ) : ℚ))
  · intro h
    have : (n : ℚ) < ((1100 : ℕ) : ℚ) := by exact_mod_cast h
    push_cast at this
    linarith

theorem emitCond_iff (n L : ℕ) :
    ((n : ℚ)/100 - 10 ≥ (L : ℚ) + 1) ↔ 100 * L + 1100 ≤ n := by
  rw [ge_iff_le, le_sub_iff_add_le, le_div_iff (by norm_num : (0:ℚ) < 100)]
  constructor
  · intro h
    have : ((100 * L + 1100 : ℕ) : ℚ) ≤ (n : ℚ) := by push_cast; linarith
    exact_mod_cast this
  · intro h
    have : ((100 * L + 1100 : ℕ) : ℚ) ≤ (n : ℚ) := by exact_mod_cast h
    push_cast at this
    linarith

/-- The emission check right after the `n+1`-st frame of the uniform
stream: no score before 11 s, then one score exactly at every full
second. -/
theorem paShouldCalcStep (expQ : ℚ → ℚ) (b : ℚ) (c : String) (hv : String)
    (sc : ℚ) (hcb : audioModelFn expQ c b = some sc) (n : ℕ) :
    shouldCalculateScore (paParams expQ)
      ⟨wnd b c hv (n+1), rmd b c hv (n+1), lastOf n,
        ((min (n+1) 2000 : ℕ) : ℚ)/100, (((n+1 : ℕ)) : ℚ)/100,
        List.replicate (lastOf n) sc, lastOf n, false⟩
      = mws b c hv sc (n+1) := by
  unfold shouldCalculateScore
  dsimp only
  rw [pyRound5_div100]
  by_cases hA : n + 1 < 1100
  · have hl0 : lastOf n = 0 := by unfold lastOf; rw [if_pos (by omega)]
    have hB : (((n+1 : ℕ)) : ℚ)/100 < 10 + 1 := by
      rw [show ((10 : ℚ) + 1) = 11 from by norm_num]
      exact (div100_lt11 _).mpr hA
    rw [if_pos ⟨hl0, hB⟩]
    unfold mws
    rw [show lastOf (n+1) = 0 from by unfold lastOf; rw [if_pos hA], hl0]
  · have hB : ¬ ((((n+1 : ℕ)) : ℚ)/100 < 10 + 1) := by
      rw [show ((10 : ℚ) + 1) = 11 from by norm_num]
      exact fun hcon => hA ((div100_lt11 _).mp hcon)
    rw [if_neg (fun hcon => hB hcon.2)]
    by_cases hdvd : (n + 1) % 100 = 0
    · have hL : lastOf n = (n+1)/100 - 11 := by
        unfold lastOf
        split <;> omega
      have hC2 : (((n+1 : ℕ)) : ℚ)/100 - 10 ≥ (lastOf n : ℚ) + 1 := by
        rw [emitCond_iff]
        omega
      rw [if_pos hC2]
      have hcbv : (paParams expQ).cb (lastOf n + 1) (wnd b c hv (n+1))
          = some [sc] := by
        show paCallback expQ (lastOf n + 1) (wnd b c hv (n+1)) = some [sc]
        unfold wnd
        refine paCallback_uniform expQ b c hv sc hcb _ _
          ((n+1) - min (n+1) 2000) ?_ ?_
        · exact List.mem_range'.mpr ⟨0, by omega, by simp⟩
        · rw [div100_lt_nat_iff]
          omega
      rw [hcbv]
      dsimp only
      unfold mws
      rw [show lastOf (n+1) = lastOf n + 1 from by
        unfold lastOf
        split <;> split <;> omega]
      rw [List.replicate_succ']
    · have hL : lastOf n = n/100 - 10 := by
        unfold lastOf
        rw [if_neg (by omega)]
      have hC2 : ¬ ((((n+1 : ℕ)) : ℚ)/100 - 10 ≥ (lastOf n : ℚ) + 1) := by
        rw [emitCond_iff]
        omega
      rw [if_neg hC2]
      unfold mws
      rw [show lastOf (n+1) = lastOf n from by
        unfold lastOf
        rw [if_neg (by omega), if_neg (by omega)]
        omega]

theorem chunkHash_mk (d dts b : ℚ) (c : String) (rep : Option String) :
    AFrame.chunkHash ⟨d, dts, b, c, rep⟩ = hvOf b c rep := by
  cases rep <;> rfl

theorem div100_acc_iff (m : ℕ) : ((m : ℚ)/100 + 1/100 > 20) ↔ 2000 < m + 1 := by
  rw [div_add_div_same, gt_iff_lt, lt_div_iff (by norm_num : (0:ℚ) < 100)]
  constructor
  · intro h
    have : ((2000 : ℕ) : ℚ) < ((m + 1 : ℕ) : ℚ) := by push_cast; linarith
    exact_mod_cast this
  · intro h
    have : ((2000 : ℕ) : ℚ) < ((m + 1 : ℕ) : ℚ) := by exact_mod_cast h
    push_cast at this
    linarith

/-- One `add_frame` of the uniform 100 Hz stream advances the described
state by one frame. -/
theorem paAddStep (expQ : ℚ → ℚ) (b : ℚ) (c : String) (hv : String) (sc : ℚ)
    (rep : Option String) (hhv : hvOf b c rep = hv)
    (hcb : audioModelFn expQ c b = some sc) (n : ℕ) :
    addFrame (paParams expQ) (mws b c hv sc n)
        ⟨1/100, (n : ℚ)/100, b, c, rep⟩
      = mws b c hv sc (n + 1) := by
  have hsr : (paParams expQ).setRep ⟨1/100, (n : ℚ)/100, b, c, rep⟩
      = some (sfr b c hv n) := by
    show some (⟨1/100, (n : ℚ)/100, b, c,
        some (AFrame.chunkHash ⟨1/100, (n : ℚ)/100, b, c, rep⟩)⟩ : AFrame)
      = some (sfr b c hv n)
    rw [chunkHash_mk, hhv]
    rfl
  unfold addFrame
  rw [if_neg (by
    show ¬ ((mws b c hv sc n).crashed = true)
    rw [show (mws b c hv sc n).crashed = false from rfl]
    exact Bool.false_ne_true)]
  rw [if_neg (by
    show ¬ ((paParams expQ).dur ⟨1/100, (n : ℚ)/100, b, c, rep⟩ = 0)
    show ¬ ((1 : ℚ)/100 = 0)
    norm_num)]
  by_cases hn : n < 2000
  · have hev : evictStep (paParams expQ) (mws b c hv sc n)
        ⟨1/100, (n : ℚ)/100, b, c, rep⟩ = mws b c hv sc n := by
      unfold evictStep
      rw [if_neg (by
        show ¬ ((mws b c hv sc n).accFrame
          + (paParams expQ).dur ⟨1/100, (n : ℚ)/100, b, c, rep⟩ > 20)
        show ¬ (((min n 2000 : ℕ) : ℚ)/100 + 1/100 > 20)
        rw [div100_acc_iff]
        omega)]
    rw [hev]
    rw [if_neg (by
      show ¬ ((mws b c hv sc n).crashed = true)
      rw [show (mws b c hv sc n).crashed = false from rfl]
      exact Bool.false_ne_true)]
    rw [hsr]
    dsimp only
    have happ : appendStep (paParams expQ) (mws b c hv sc n) (sfr b c hv n)
        = ⟨wnd b c hv (n+1), rmd b c hv (n+1), lastOf n,
            ((min (n+1) 2000 : ℕ) : ℚ)/100, (((n+1 : ℕ)) : ℚ)/100,
            List.replicate (lastOf n) sc, lastOf n, false⟩ := by
      unfold appendStep mws
      dsimp only
      congr 1
      · unfold wnd
        rw [show min n 2000 = n from by omega,
          show min (n+1) 2000 = n + 1 from by omega,
          show n - n = 0 from by omega, show n + 1 - (n + 1) = 0 from by omega,
          List.range'_concat, List.map_append]
        simp [sfr]
      · unfold rmd
        rw [show min n 2000 = n from by omega,
          show min (n+1) 2000 = n + 1 from by omega,
          Nat.sub_self, Nat.sub_self]
      · show ((min n 2000 : ℕ) : ℚ)/100 + (1 : ℚ)/100
          = ((min (n+1) 2000 : ℕ) : ℚ)/100
        rw [show min n 2000 = n from by omega,
          show min (n+1) 2000 = n + 1 from by omega]
        push_cast
        ring
      · show (n : ℚ)/100 + (1 : ℚ)/100 = (((n+1 : ℕ)) : ℚ)/100
        push_cast
        ring
    rw [happ]
    exact paShouldCalcStep expQ b c hv sc hcb n
  · have hwnd : wnd b c hv n = sfr b c hv (n - 2000)
        :: (List.range' (n - 1999) 1999).map (sfr b c hv) := by
      unfold wnd
      rw [show min n 2000 = 2000 from by omega,
        show (2000 : ℕ) = 1999 + 1 from rfl, List.range'_succ, List.map_cons,
        show n - 2000 + 1 = n - 1999 from by omega]
    have hev : evictStep (paParams expQ) (mws b c hv sc n)
        ⟨1/100, (n : ℚ)/100, b, c, rep⟩
        = ⟨(List.range' (n - 1999) 1999).map (sfr b c hv),
            rmd b c hv n ++ [sfr b c hv (n - 2000)], lastOf n,
            ((min n 2000 : ℕ) : ℚ)/100 - (1 : ℚ)/100, (n : ℚ)/100,
            List.replicate (lastOf n) sc, lastOf n, false⟩ := by
      unfold evictStep
      rw [if_pos (by
        show ((mws b c hv sc n).accFrame
          + (paParams expQ).dur ⟨1/100, (n : ℚ)/100, b, c, rep⟩ > 20)
        show (((min n 2000 : ℕ) : ℚ)/100 + 1/100 > 20)
        rw [div100_acc_iff]
        omega)]
      have hframes : (mws b c hv sc n).frames
          = sfr b c hv (n - 2000)
            :: (List.range' (n - 1999) 1999).map (sfr b c hv) := hwnd
      rw [hframes]
      rfl
    rw [hev]
    rw [if_neg (by exact Bool.false_ne_true)]
    rw [hsr]
    dsimp only
    have happ : appendStep (paParams expQ)
        ⟨(List.range' (n - 1999) 1999).map (sfr b c hv),
          rmd b c hv n ++ [sfr b c hv (n - 2000)], lastOf n,
          ((min n 2000 : ℕ) : ℚ)/100 - (1 : ℚ)/100, (n : ℚ)/100,
          List.replicate (lastOf n) sc, lastOf n, false⟩ (sfr b c hv n)
        = ⟨wnd b c hv (n+1), rmd b c hv (n+1), lastOf n,
            ((min (n+1) 2000 : ℕ) : ℚ)/100, (((n+1 : ℕ)) : ℚ)/100,
            List.replicate (lastOf n) sc, lastOf n, false⟩ := by
      unfold appendStep
      dsimp only
      congr 1
      · show (List.range' (n - 1999) 1999).map (sfr b c hv) ++ [sfr b c hv n]
            = wnd b c hv (n+1)
        unfold wnd
        rw [show min (n+1) 2000 = 2000 from by omega,
          show n + 1 - 2000 = n - 1999 from by omega,
          show (List.range' (n - 1999) 2000)
              = List.range' (n - 1999) 1999 ++ [n] from by
            rw [show (2000 : ℕ) = 1999 + 1 from rfl, List.range'_concat]
            simp only [one_mul]
            rw [show n - 1999 + 1999 = n from by omega],
          List.map_append]
        rfl
      · unfold rmd
        rw [show min (n+1) 2000 = 2000 from by omega,
          show min n 2000 = 2000 from by omega,
          show n + 1 - 2000 = (n - 2000) + 1 from by omega,
          List.range'_concat, List.map_append]
        simp only [one_mul, zero_add]
        rfl
      · show ((min n 2000 : ℕ) : ℚ)/100 - (1 : ℚ)/100 + (1 : ℚ)/100
          = ((min (n+1) 2000 : ℕ) : ℚ)/100
        rw [show min n 2000 = 2000 from by omega,
          show min (n+1) 2000 = 2000 from by omega]
        ring
      · show (n : ℚ)/100 + (1 : ℚ)/100 = (((n+1 : ℕ)) : ℚ)/100
        push_cast
        ring
    rw [happ]
    exact paShouldCalcStep expQ b c hv sc hcb n

/-- The flush loop on a uniform window appends one chunk score per
remaining output second and never crashes. -/
theorem paFlushInv (expQ : ℚ → ℚ) (b : ℚ) (c : String) (hv : String)
    (sc : ℚ) (hcb : audioModelFn expQ c b = some sc) (N : ℕ) :
    ∀ (m : ℕ) (t : ℕ) (s : MW AFrame) (a : ℕ),
    s.crashed = false →
    s.frames = (List.range' a (N - a)).map (sfr b c hv) →
    a < 100 * t → a ≤ N - 1 → 100 ≤ N → 1 ≤ t →
    100 * (t + m) ≤ N + 1000 →
    (flushGo (paParams expQ) m t s).o = s.o ++ List.replicate m sc ∧
    (flushGo (paParams expQ) m t s).crashed = false := by
  intro m
  induction m with
  | zero =>
      intro t s a h1 _ _ _ _ _ _
      exact ⟨by simp [flushGo], by simp [flushGo, h1]⟩
  | succ m ih =>
      intro t s a h1 hfr ha100 haN hN ht hbound
      have hcutN : (100 * (t : ℤ) - 1000).toNat < a + (N - a) := by omega
      obtain ⟨pop, d, hpops⟩ :=
        flushPops_uniform expQ b c hv t (N - a) a hcutN (by omega)
      unfold flushGo
      rw [hfr, hpops]
      dsimp only
      have hsome : (paParams expQ).cb t
          ((List.range' (max a (100 * (t : ℤ) - 1000).toNat)
            (a + (N - a) - max a (100 * (t : ℤ) - 1000).toNat)).map (sfr b c hv))
          = some [sc] := by
        show paCallback expQ t _ = some [sc]
        refine paCallback_uniform expQ b c hv sc hcb t _
          (max a (100 * (t : ℤ) - 1000).toNat) ?_ ?_
        · exact List.mem_range'.mpr ⟨0, by omega, by simp⟩
        · rw [div100_lt_nat_iff]
          omega
      rw [hsome]
      dsimp only
      have hrec := ih (t + 1)
        ⟨(List.range' (max a (100 * (t : ℤ) - 1000).toNat)
            (a + (N - a) - max a (100 * (t : ℤ) - 1000).toNat)).map (sfr b c hv),
          s.removed ++ pop, s.last, s.accFrame - d, s.accPvs, s.o ++ [sc],
          s.cbCount + 1, s.crashed⟩
        (max a (100 * (t : ℤ) - 1000).toNat) h1
        (by
          show _ = (List.range' _ (N - max a (100 * (t : ℤ) - 1000).toNat)).map _
          rw [show a + (N - a) - max a (100 * (t : ℤ) - 1000).toNat
            = N - max a (100 * (t : ℤ) - 1000).toNat from by omega])
        (by omega) (by omega) hN (by omega) (by omega)
      obtain ⟨ho, hcr⟩ := hrec
      constructor
      · rw [ho]
        show s.o ++ [sc] ++ List.replicate m sc = s.o ++ List.replicate (m + 1) sc
        rw [List.append_assoc, List.singleton_append,
          ← List.replicate_succ]
      · exact hcr

theorem floor_div100 (N : ℕ) : Int.floor ((N : ℚ)/100) = ((N / 100 : ℕ) : ℤ) := by
  rw [Int.floor_eq_iff]
  refine ⟨?_, ?_⟩
  · show ((((N / 100 : ℕ) : ℤ)) : ℚ) ≤ (N : ℚ)/100
    rw [le_div_iff (by norm_num : (0:ℚ) < 100)]
    have h : (N / 100 * 100 : ℕ) ≤ N := Nat.div_mul_le_self N 100
    exact_mod_cast h
  · show (N : ℚ)/100 < (((N / 100 : ℕ) : ℤ)) + 1
    rw [div_lt_iff (by norm_num : (0:ℚ) < 100)]
    have h : N < (N / 100 + 1) * 100 := by omega
    calc (N : ℚ) < (((N / 100 + 1) * 100 : ℕ) : ℚ) := by exact_mod_cast h
      _ = ((((N / 100 : ℕ) : ℤ)) + 1) * 100 := by norm_cast

/-- Induction over the mode-independent frame-feeding loop: the window
state after `n` frames is exactly `mws n`. -/
theorem paAddInv (expQ : ℚ → ℚ) (b : ℚ) (c : String) (hv : String) (sc : ℚ)
    (rep : Option String) (hhv : hvOf b c rep = hv)
    (hcb : audioModelFn expQ c b = some sc) :
    ∀ n : ℕ, (List.range n).foldl
        (fun (p : ℚ × MW AFrame) _ =>
          (p.1 + 1/100, addFrame (paParams expQ) p.2 ⟨1/100, p.1, b, c, rep⟩))
        (0, MW.init)
      = ((n : ℚ)/100, mws b c hv sc n) := by
  intro n
  induction n with
  | zero =>
      refine Prod.ext (by norm_num) ?_
      show MW.init = mws b c hv sc 0
      unfold mws wnd rmd lastOf MW.init
      norm_num
  | succ n ih =>
      rw [List.range_succ, List.foldl_append, ih]
      simp only [List.foldl_cons, List.foldl_nil]
      refine Prod.ext (by push_cast; ring) ?_
      show addFrame (paParams expQ) (mws b c hv sc n)
          ⟨1/100, (n : ℚ)/100, b, c, rep⟩ = mws b c hv sc (n + 1)
      exact paAddStep expQ b c hv sc rep hhv hcb n

/-- The measurement-window Pa run on a single supported-codec segment of
duration `> 11` s produces exactly `⌊duration⌋` copies of the chunk
score. -/
theorem paWindow_single (expQ : ℚ → ℚ) (seg : ASegment)
    (hc : seg.codec ∈ VALID_CODECS) (hd : 11 < seg.duration) :
    paWindowO21 expQ [seg]
      = some (List.replicate (Int.floor seg.duration).toNat
          (scOf expQ seg.codec seg.bitrate)) := by
  have hca : seg.codec ≠ "aac" := by
    intro h
    rw [h] at hc
    exact (by decide : ¬ ("aac" ∈ VALID_CODECS)) hc
  have hcb : audioModelFn expQ seg.codec seg.bitrate
      = some (scOf expQ seg.codec seg.bitrate) :=
    audioModelFn_valid expQ seg.bitrate hc
  set N : ℕ := (pyInt (seg.duration * 100)).toNat with hN
  set D : ℕ := (Int.floor seg.duration).toNat with hD
  have hdpos : (0 : ℚ) < seg.duration := by linarith
  have hfl1 : ((Int.floor (seg.duration * 100)) : ℚ) ≤ seg.duration * 100 :=
    Int.floor_le _
  have hfl2 : seg.duration * 100 < (Int.floor (seg.duration * 100)) + 1 :=
    Int.lt_floor_add_one _
  have hfd1 : ((Int.floor seg.duration) : ℚ) ≤ seg.duration := Int.floor_le _
  have hfd2 : seg.duration < (Int.floor seg.duration) + 1 :=
    Int.lt_floor_add_one _
  have hflnn : 0 ≤ Int.floor (seg.duration * 100) :=
    Int.floor_nonneg.mpr (by positivity)
  have hfdnn : 0 ≤ Int.floor seg.duration := Int.floor_nonneg.mpr (by linarith)
  have hNeq : (N : ℤ) = Int.floor (seg.duration * 100) := by
    rw [hN]
    unfold pyInt
    rw [if_pos (by positivity)]
    omega
  have hDeq : (D : ℤ) = Int.floor seg.duration := by
    rw [hD]
    omega
  have hDN1 : 100 * D ≤ N := by
    have h1 : ((100 * D : ℕ) : ℚ) ≤ seg.duration * 100 := by
      push_cast
      have : ((D : ℤ) : ℚ) ≤ seg.duration := by rw [hDeq]; exact hfd1
      push_cast at this
      linarith
    have h2 : ((100 * D : ℕ) : ℤ) ≤ Int.floor (seg.duration * 100) :=
      Int.le_floor.mpr (by exact_mod_cast h1)
    omega
  have hDN2 : N ≤ 100 * D + 99 := by
    have h1 : seg.duration * 100 < ((100 * D + 100 : ℕ) : ℚ) := by
      push_cast
      have : seg.duration < ((D : ℤ) : ℚ) + 1 := by rw [hDeq]; exact hfd2
      push_cast at this
      linarith
    have h2 : Int.floor (seg.duration * 100) < ((100 * D + 100 : ℕ) : ℤ) :=
      Int.floor_lt.mpr (by exact_mod_cast h1)
    omega
  have hD11 : 11 ≤ D := by
    have h1 : (11 : ℚ) < ((D : ℤ) : ℚ) + 1 := by
      rw [hDeq]
      calc (11 : ℚ) < seg.duration := hd
        _ < _ := hfd2
    have : (10 : ℤ) < (D : ℤ) := by exact_mod_cast (by linarith : (10 : ℚ) < ((D : ℤ) : ℚ))
    omega
  have hN1100 : 1100 ≤ N := by omega
  have hrun : paWindowRun expQ [seg]
      = streamFinished (paParams expQ)
          (mws seg.bitrate seg.codec (hvOf seg.bitrate seg.codec
            seg.representation) (scOf expQ seg.codec seg.bitrate) N) := by
    unfold paWindowRun
    rw [List.foldl_cons, List.foldl_nil]
    unfold paSegmentLoop
    dsimp only
    rw [if_neg hca]
    have hfun : (fun (p : ℚ × MW AFrame) (_ : ℕ) =>
        (p.1 + 1/100, addFrame (paParams expQ) p.2 (paFrame seg seg.codec p.1)))
        = (fun (p : ℚ × MW AFrame) (_ : ℕ) =>
        (p.1 + 1/100, addFrame (paParams expQ) p.2
          (⟨1/100, p.1, seg.bitrate, seg.codec, seg.representation⟩ : AFrame)))
      := rfl
    rw [hfun, ← hN,
      paAddInv expQ seg.bitrate seg.codec _ _ seg.representation rfl hcb N]
  rw [show paWindowO21 expQ [seg]
      = (if (paWindowRun expQ [seg]).crashed then none
         else some (paWindowRun expQ [seg]).o) from rfl, hrun]
  have hlastN : lastOf N = D - 10 := by
    unfold lastOf
    rw [if_neg (by omega)]
    omega
  have hflush := paFlushInv expQ seg.bitrate seg.codec
    (hvOf seg.bitrate seg.codec seg.representation)
    (scOf expQ seg.codec seg.bitrate) hcb N 10 (D - 9)
    (mws seg.bitrate seg.codec (hvOf seg.bitrate seg.codec seg.representation)
      (scOf expQ seg.codec seg.bitrate) N)
    (N - min N 2000) rfl
    (by
      show wnd _ _ _ N = _
      unfold wnd
      rw [show N - (N - min N 2000) = min N 2000 from by omega])
    (by omega) (by omega) (by omega) (by omega) (by omega)
  have hsf : streamFinished (paParams expQ)
      (mws seg.bitrate seg.codec (hvOf seg.bitrate seg.codec seg.representation)
        (scOf expQ seg.codec seg.bitrate) N)
      = flushGo (paParams expQ) 10 (D - 9)
          (mws seg.bitrate seg.codec (hvOf seg.bitrate seg.codec
            seg.representation) (scOf expQ seg.codec seg.bitrate) N) := by
    unfold streamFinished
    rw [if_neg (by exact Bool.false_ne_true)]
    dsimp only
    rw [show (mws seg.bitrate seg.codec (hvOf seg.bitrate seg.codec
        seg.representation) (scOf expQ seg.codec seg.bitrate) N).accPvs
        = (N : ℚ)/100 from rfl]
    rw [floor_div100]
    rw [if_neg (by
      have hmod : (N : ℚ)/100 - (((N / 100 : ℕ) : ℤ) : ℚ)
          = ((N % 100 : ℕ) : ℚ)/100 := by
        have hsplit : (N : ℚ) = 100 * ((N / 100 : ℕ) : ℚ) + ((N % 100 : ℕ) : ℚ) := by
          exact_mod_cast (by omega : N = 100 * (N / 100) + N % 100)
        have hcollapse : (((N / 100 : ℕ) : ℤ) : ℚ) = ((N / 100 : ℕ) : ℚ) := by
          norm_cast
        rw [hcollapse]
        field_simp
        linarith [hsplit]
      rw [hmod]
      rw [gt_iff_lt, div_lt_div_iff (by norm_num : (0:ℚ) < 100)
        (by norm_num : (0:ℚ) < 100)]
      have : (N % 100 : ℕ) ≤ 99 := by omega
      push_cast
      intro hcon
      have h99 : (99 : ℚ) < ((N % 100 : ℕ) : ℚ) := by linarith
      have : (99 : ℕ) < N % 100 := by exact_mod_cast h99
      omega)]
    rw [show (mws seg.bitrate seg.codec (hvOf seg.bitrate seg.codec
        seg.representation) (scOf expQ seg.codec seg.bitrate) N).last
        = lastOf N from rfl, hlastN]
    rw [show (((N / 100 : ℕ) : ℤ) - ((D - 10 : ℕ) : ℕ)).toNat = 10 from by omega]
    rw [show (D - 10 : ℕ) + 1 = D - 9 from by omega]
  rw [hsf]
  obtain ⟨ho, hcr⟩ := hflush
  rw [if_neg (by rw [hcr]; exact Bool.false_ne_true)]
  rw [ho]
  rw [show (mws seg.bitrate seg.codec (hvOf seg.bitrate seg.codec
      seg.representation) (scOf expQ seg.codec seg.bitrate) N).o
      = List.replicate (lastOf N) (scOf expQ seg.codec seg.bitrate) from rfl]
  rw [hlastN, ← List.replicate_add]
  rw [show D - 10 + 10 = D from by omega]

/-- Fast-mode Pa on a single supported-codec segment. -/
theorem paFast_single (expQ : ℚ → ℚ) (seg : ASegment)
    (hc : seg.codec ∈ VALID_CODECS) :
    paFastO21 expQ [seg]
      = some (List.replicate (Int.floor seg.duration).toNat
          (scOf expQ seg.codec seg.bitrate)) := by
  unfold paFastO21
  rw [List.foldl_cons, List.foldl_nil]
  dsimp only
  rw [audioModelFn_valid expQ seg.bitrate hc]
  dsimp only
  rw [List.nil_append]

set_option maxHeartbeats 1000000 in
/-- **C9.** For a session of a single audio segment with a supported
codec and duration `> 11` s, window-mode and fast-mode Pa produce the
*same* `O21` vector — `⌊duration⌋` copies of the one chunk score — so in
particular they agree element-wise within `1e-6`. -/
theorem c9_theorem (expQ : ℚ → ℚ) (seg : ASegment)
    (hc : seg.codec ∈ VALID_CODECS) (hd : 11 < seg.duration) :
    paWindowO21 expQ [seg]
      = some (List.replicate (Int.floor seg.duration).toNat
          (scOf expQ seg.codec seg.bitrate)) ∧
    paFastO21 expQ [seg]
      = some (List.replicate (Int.floor seg.duration).toNat
          (scOf expQ seg.codec seg.bitrate)) ∧
    ∀ la lb, paWindowO21 expQ [seg] = some la → paFastO21 expQ [seg] = some lb →
      la.length = lb.length ∧ ∀ p ∈ la.zip lb, |p.1 - p.2| < 1/1000000 := by
  have hw := paWindow_single expQ seg hc hd
  have hf := paFast_single expQ seg hc
  refine ⟨hw, hf, ?_⟩
  intro la lb hla hlb
  rw [hw] at hla
  rw [hf] at hlb
  obtain rfl : la = List.replicate (Int.floor seg.duration).toNat
      (scOf expQ seg.codec seg.bitrate) := (Option.some_injective _ hla).symm
  obtain rfl : lb = List.replicate (Int.floor seg.duration).toNat
      (scOf expQ seg.codec seg.bitrate) := (Option.some_injective _ hlb).symm
  refine ⟨rfl, ?_⟩
  intro p hp
  obtain ⟨h1, h2⟩ := List.mem_zip hp
  rw [List.eq_of_mem_replicate h1, List.eq_of_mem_replicate h2]
  norm_num

/-- **C9, witness.** The theorem applied to a 12-second `aaclc` segment
at 64 kbit/s (with `exp` replaced by the constant‑1 stand-in). -/
theorem c9_witness :
    ("aaclc" ∈ VALID_CODECS) ∧ ((11 : ℚ) < 12) ∧
    paWindowO21 (fun _ => 1) [⟨12, 64, "aaclc", none⟩]
      = some (List.replicate (Int.floor ((12 : ℚ))).toNat
          (scOf (fun _ => 1) "aaclc" 64)) := by
  have hmem : "aaclc" ∈ VALID_CODECS := by decide
  exact ⟨hmem, by norm_num,
    (c9_theorem (fun _ => 1) ⟨12, 64, "aaclc", none⟩ hmem (by norm_num)).1⟩

end P1203
